import Mathlib

/-!
# air: template comparison functions and the request binder

A shallow embedding of `renderer.go` (the comparison functions registered in
the template function map) and of `binder.go` (the struct binder), followed by
the properties established about them.

Conventions of the embedding

* A Go `interface{}` argument is represented by the `Value` that
  `reflect.ValueOf` produces for it: its kind together with the payload the
  accessor of that kind returns (`Int()` : int64, `Uint()` : uint64,
  `Float()` : float64, `Complex()` : complex128, `Bool()`, `String()`).
* A float64 is its IEEE-754 binary64 bit pattern, a natural number read
  modulo `2^64`; `==` and `<` on floats are defined on the bit pattern.
* A Go string that is a value is its sequence of bytes; the names of struct
  fields and of request parameters, which are only tested for equality, are
  `String`s.
* `bindParams` updates its target in place; the embedding returns the error
  together with the target as it is after the call.  `bind` returns in addition
  the status of the response.
* `strlen` and `substr` work on the runes of their argument; there the string
  is a `String`, a sequence of Unicode code points.  Go `int`s are integers
  whose sums are reduced to 64 bits.
* A Go function returning `(bool, error)` that may also panic returns
  `Except String (Bool × Option Error)`: `Except.error msg` is `panic(msg)`,
  `Except.ok (b, none)` is `(b, nil)`.
-/

namespace Air

/-! ## Kinds, categories and errors -/

/-- The kinds of `reflect.Kind`, in the order of the Go declaration. -/
inductive Kind
  | Invalid
  | Bool
  | Int | Int8 | Int16 | Int32 | Int64
  | Uint | Uint8 | Uint16 | Uint32 | Uint64 | Uintptr
  | Float32 | Float64
  | Complex64 | Complex128
  | Array | Chan | Func | Interface | Map | Ptr | Slice
  | String
  | Struct
  | UnsafePointer
  deriving DecidableEq, Repr

/-- The basic type kind of `renderer.go` (`type typeKind int`). -/
inductive typeKind
  | invalidKind
  | intKind
  | uintKind
  | floatKind
  | complexKind
  | boolKind
  | stringKind
  deriving DecidableEq, Repr

/-- The error values of the two files.  The first three are the package
variables of `renderer.go`; the next ones are the `errors.New` values built in
`binder.go`; `external` stands for an error produced outside the two files
(a codec, the media type parser, a parameter accessor). -/
inductive Error
  | errBadComparisonType   -- "Invalid Type For Comparison"
  | errBadComparison       -- "Incompatible Types For Comparison"
  | errNoComparison        -- "Missing Argument For Comparison"
  | errEmptyBody           -- "request body cannot be empty"
  | errNotStruct           -- "binding element must be a struct"
  | errUnknownType         -- "unknown type"
  | errUnsupportedMedia    -- "unsupported media type"
  | external (msg : String)
  deriving DecidableEq, Repr

open typeKind Error

/-- The signed integer kinds. -/
inductive IntKind
  | Int | Int8 | Int16 | Int32 | Int64
  deriving DecidableEq, Repr

/-- The unsigned integer kinds (`Uintptr` included, as in `reflect`). -/
inductive UintKind
  | Uint | Uint8 | Uint16 | Uint32 | Uint64 | Uintptr
  deriving DecidableEq, Repr

/-- The floating-point kinds. -/
inductive FloatKind
  | Float32 | Float64
  deriving DecidableEq, Repr

/-- The complex kinds. -/
inductive ComplexKind
  | Complex64 | Complex128
  deriving DecidableEq, Repr

/-- The kinds that carry no scalar payload, `Slice`, `Struct` and `Invalid`
apart. -/
inductive OtherKind
  | Array | Chan | Func | Interface | Map | Ptr | UnsafePointer
  deriving DecidableEq, Repr

def IntKind.toKind : IntKind → Kind
  | .Int => .Int | .Int8 => .Int8 | .Int16 => .Int16 | .Int32 => .Int32 | .Int64 => .Int64

def UintKind.toKind : UintKind → Kind
  | .Uint => .Uint | .Uint8 => .Uint8 | .Uint16 => .Uint16 | .Uint32 => .Uint32
  | .Uint64 => .Uint64 | .Uintptr => .Uintptr

def FloatKind.toKind : FloatKind → Kind
  | .Float32 => .Float32 | .Float64 => .Float64

def ComplexKind.toKind : ComplexKind → Kind
  | .Complex64 => .Complex64 | .Complex128 => .Complex128

def OtherKind.toKind : OtherKind → Kind
  | .Array => .Array | .Chan => .Chan | .Func => .Func | .Interface => .Interface
  | .Map => .Map | .Ptr => .Ptr | .UnsafePointer => .UnsafePointer

/-! ## Values -/

mutual
/-- A Go value as `reflect.ValueOf` presents it.  `nil` is the zero
`reflect.Value` of an untyped nil; `int k i` carries the int64 that `Int()`
returns, `uint k n` the uint64 of `Uint()`, `float k bits` the float64 of
`Float()` (a float32 is widened exactly), `complex k re im` the two float64
halves of `Complex()`, `string bytes` the bytes of the string,
`slice elems` a `[]interface{}` with its elements, and `struct fields` a
struct with its fields in the order of their declaration. -/
inductive Value
  | nil
  | bool (b : Bool)
  | int (k : IntKind) (i : Int)
  | uint (k : UintKind) (n : Nat)
  | float (k : FloatKind) (bits : Nat)
  | complex (k : ComplexKind) (re im : Nat)
  | string (bytes : List Nat)
  | slice (elems : List Value)
  | struct (fields : List Field)
  | other (k : OtherKind)
/-- A field of a struct: its name (`StructField.Name`), whether the binder may
set it (`CanSet()`, which for a field reached through a pointer to the struct
means that the field is exported), and its current value. -/
inductive Field
  | mk (name : String) (settable : Bool) (value : Value)
end

/-- The name of a field. -/
def Field.name : Field → String
  | .mk n _ _ => n

/-- The result of `CanSet()` on a field. -/
def Field.settable : Field → Bool
  | .mk _ s _ => s

/-- The current value of a field. -/
def Field.value : Field → Value
  | .mk _ _ v => v

/-- The method `Value.Kind()`. -/
def Value.Kind : Value → Kind
  | .nil => .Invalid
  | .bool _ => .Bool
  | .int k _ => k.toKind
  | .uint k _ => k.toKind
  | .float k _ => k.toKind
  | .complex k _ _ => k.toKind
  | .string _ => .String
  | .slice _ => .Slice
  | .struct _ => .Struct
  | .other k => k.toKind

/-- The method `Value.Bool()`: panics unless the kind is `Bool`. -/
def Value.Bool : Value → Except String Bool
  | .bool b => pure b
  | _ => throw "reflect: call of reflect.Value.Bool on non-bool Value"

/-- The method `Value.Int()`: panics unless the kind is a signed integer kind. -/
def Value.Int : Value → Except String Int
  | .int _ i => pure i
  | _ => throw "reflect: call of reflect.Value.Int on non-int Value"

/-- The method `Value.Uint()`: panics unless the kind is an unsigned integer kind. -/
def Value.Uint : Value → Except String Nat
  | .uint _ n => pure n
  | _ => throw "reflect: call of reflect.Value.Uint on non-uint Value"

/-- The method `Value.Float()`: panics unless the kind is a float kind. -/
def Value.Float : Value → Except String Nat
  | .float _ bits => pure bits
  | _ => throw "reflect: call of reflect.Value.Float on non-float Value"

/-- The method `Value.Complex()`: panics unless the kind is a complex kind. -/
def Value.Complex : Value → Except String (Nat × Nat)
  | .complex _ re im => pure (re, im)
  | _ => throw "reflect: call of reflect.Value.Complex on non-complex Value"

/-- The method `Value.String()`.  On a value that is not a string Go does not
panic but returns a placeholder of the form `<T Value>`; the placeholder is
modelled by the bytes of `<Value>`. -/
def Value.String : Value → Except String (List Nat)
  | .string bytes => pure bytes
  | _ => pure [60, 86, 97, 108, 117, 101, 62]

/-! ## Native comparisons -/

/-- The sign bit of a binary64 bit pattern. -/
def f64Sign (bits : Nat) : Bool := (bits / 2 ^ 63) % 2 = 1

/-- The low 63 bits of a binary64 bit pattern (exponent and fraction). -/
def f64Mag (bits : Nat) : Nat := bits % 2 ^ 63

/-- A bit pattern is a NaN when the exponent is all ones and the fraction is
not zero, that is when its magnitude exceeds that of infinity. -/
def f64IsNaN (bits : Nat) : Bool := decide (0x7FF0000000000000 < f64Mag bits)

/-- The signed magnitude of a bit pattern: on patterns that are not NaN the
order of the represented numbers is the order of these integers, and the two
zeros have the same one. -/
def f64Key (bits : Nat) : Int :=
  if f64Sign bits then -(f64Mag bits : Int) else (f64Mag bits : Int)

/-- Go `==` on float64. -/
def f64Eq (x y : Nat) : Bool :=
  !f64IsNaN x && !f64IsNaN y && decide (f64Key x = f64Key y)

/-- Go `<` on float64. -/
def f64Lt (x y : Nat) : Bool :=
  !f64IsNaN x && !f64IsNaN y && decide (f64Key x < f64Key y)

/-- Go `==` on complex128: both halves are equal as floats. -/
def c128Eq (x y : Nat × Nat) : Bool := f64Eq x.1 y.1 && f64Eq x.2 y.2

/-- Go `<` on strings: the byte-wise lexicographic order. -/
def strLt : List Nat → List Nat → Bool
  | _, [] => false
  | [], _ :: _ => true
  | a :: as, b :: bs => decide (a < b) || (decide (a = b) && strLt as bs)

/-! ## The comparison functions of `renderer.go` -/

/-- The function `basicKind`. -/
def basicKind (v : Value) : typeKind × Option Error :=
  match v.Kind with
  | .Bool => (boolKind, none)
  | .Int | .Int8 | .Int16 | .Int32 | .Int64 => (intKind, none)
  | .Uint | .Uint8 | .Uint16 | .Uint32 | .Uint64 | .Uintptr => (uintKind, none)
  | .Float32 | .Float64 => (floatKind, none)
  | .Complex64 | .Complex128 => (complexKind, none)
  | .String => (stringKind, none)
  | _ => (invalidKind, some errBadComparisonType)

/-- The `switch k1` of `eq`, which computes `truth` for one candidate. -/
def eqTruth (k1 : typeKind) (v1 v2 : Value) : Except String Bool :=
  match k1 with
  | boolKind => do
    let x ← v1.Bool
    let y ← v2.Bool
    pure (x == y)
  | complexKind => do
    let x ← v1.Complex
    let y ← v2.Complex
    pure (c128Eq x y)
  | floatKind => do
    let x ← v1.Float
    let y ← v2.Float
    pure (f64Eq x y)
  | intKind => do
    let x ← v1.Int
    let y ← v2.Int
    pure (x == y)
  | stringKind => do
    let x ← v1.String
    let y ← v2.String
    pure (x == y)
  | uintKind => do
    let x ← v1.Uint
    let y ← v2.Uint
    pure (x == y)
  | invalidKind => throw "Invalid Kind"

/-- The `for _, arg := range arg2` loop of `eq`, on the candidates that are
left. -/
def eqLoop (v1 : Value) (k1 : typeKind) : List Value → Except String (Bool × Option Error)
  | [] => pure (false, none)
  | arg :: rest =>
    let v2 := arg
    match basicKind v2 with
    | (_, some err) => pure (false, some err)
    | (k2, none) =>
      if k1 ≠ k2 then pure (false, some errBadComparison)
      else do
        let truth ← eqTruth k1 v1 v2
        if truth then pure (true, none) else eqLoop v1 k1 rest

/-- The function `eq`: `a == b || a == c || ...`. -/
def eq (arg1 : Value) (arg2 : List Value) : Except String (Bool × Option Error) :=
  let v1 := arg1
  match basicKind v1 with
  | (_, some err) => pure (false, some err)
  | (k1, none) =>
    if arg2.length = 0 then pure (false, some errNoComparison)
    else eqLoop v1 k1 arg2

/-- The function `ne`.  The source calls `eq(arg1, arg2)` and not
`eq(arg1, arg2...)`: the whole candidate slice is handed to `eq` as its single
candidate. -/
def ne (arg1 : Value) (arg2 : List Value) : Except String (Bool × Option Error) := do
  let (equal, err) ← eq arg1 [Value.slice arg2]
  pure (!equal, err)

/-- The function `lt`. -/
def lt (arg1 arg2 : Value) : Except String (Bool × Option Error) :=
  let v1 := arg1
  match basicKind v1 with
  | (_, some err) => pure (false, some err)
  | (k1, none) =>
    let v2 := arg2
    match basicKind v2 with
    | (_, some err) => pure (false, some err)
    | (k2, none) =>
      if k1 ≠ k2 then pure (false, some errBadComparison)
      else
        match k1 with
        | boolKind | complexKind => pure (false, some errBadComparisonType)
        | floatKind => do
          let x ← v1.Float
          let y ← v2.Float
          pure (f64Lt x y, none)
        | intKind => do
          let x ← v1.Int
          let y ← v2.Int
          pure (decide (x < y), none)
        | stringKind => do
          let x ← v1.String
          let y ← v2.String
          pure (strLt x y, none)
        | uintKind => do
          let x ← v1.Uint
          let y ← v2.Uint
          pure (decide (x < y), none)
        | invalidKind => throw "Invalid Kind"

/-- The function `le`: `lt`, and `eq` when `lt` is false without an error. -/
def le (arg1 arg2 : Value) : Except String (Bool × Option Error) := do
  let (lessThan, err) ← lt arg1 arg2
  if lessThan || err.isSome then pure (lessThan, err)
  else eq arg1 [arg2]

/-- The function `gt`: the inverse of `le`. -/
def gt (arg1 arg2 : Value) : Except String (Bool × Option Error) := do
  let (lessOrEqual, err) ← le arg1 arg2
  if err.isSome then pure (false, err)
  else pure (!lessOrEqual, none)

/-- The function `ge`: the inverse of `lt`. -/
def ge (arg1 arg2 : Value) : Except String (Bool × Option Error) := do
  let (lessThan, err) ← lt arg1 arg2
  if err.isSome then pure (false, err)
  else pure (!lessThan, none)


/-! ## Reference definitions for the comparison functions

These follow the wording of the specification, not the code; the theorems
below compare them with the functions above. -/

/-- Equality of two values under the equality of the category they share:
booleans as booleans, integers as int64, unsigned integers as uint64, floats as
float64, complex numbers as complex128, strings as strings, whatever the
declared widths; values of different categories are never equal. -/
def sameValue : Value → Value → Bool
  | .bool x, .bool y => x == y
  | .complex _ r i, .complex _ r' i' => f64Eq r r' && f64Eq i i'
  | .float _ x, .float _ y => f64Eq x y
  | .int _ x, .int _ y => x == y
  | .string x, .string y => x == y
  | .uint _ x, .uint _ y => x == y
  | _, _ => false

/-- The native order within the four orderable categories. -/
def nativeLt : Value → Value → Bool
  | .float _ x, .float _ y => f64Lt x y
  | .int _ x, .int _ y => decide (x < y)
  | .string x, .string y => strLt x y
  | .uint _ x, .uint _ y => decide (x < y)
  | _, _ => false

/-- The reference for `lt`: a value that does not classify gives
`errBadComparisonType`, two different categories give `errBadComparison`, the
boolean and the complex category give `errBadComparisonType`, and otherwise
the result is the native `<`. -/
def ltRef (a b : Value) : Bool × Option Error :=
  if (basicKind a).2 ≠ none ∨ (basicKind b).2 ≠ none then (false, some errBadComparisonType)
  else if (basicKind a).1 ≠ (basicKind b).1 then (false, some errBadComparison)
  else if (basicKind a).1 = boolKind ∨ (basicKind a).1 = complexKind then
    (false, some errBadComparisonType)
  else (nativeLt a b, none)

/-- The category table of the classifier, one line per runtime kind. -/
def categoryOf : Kind → typeKind
  | .Invalid => invalidKind
  | .Bool => boolKind
  | .Int => intKind
  | .Int8 => intKind
  | .Int16 => intKind
  | .Int32 => intKind
  | .Int64 => intKind
  | .Uint => uintKind
  | .Uint8 => uintKind
  | .Uint16 => uintKind
  | .Uint32 => uintKind
  | .Uint64 => uintKind
  | .Uintptr => uintKind
  | .Float32 => floatKind
  | .Float64 => floatKind
  | .Complex64 => complexKind
  | .Complex128 => complexKind
  | .Array => invalidKind
  | .Chan => invalidKind
  | .Func => invalidKind
  | .Interface => invalidKind
  | .Map => invalidKind
  | .Ptr => invalidKind
  | .Slice => invalidKind
  | .String => stringKind
  | .Struct => invalidKind
  | .UnsafePointer => invalidKind

/-- A value of each kind: every runtime kind is the kind of some value. -/
def valueOfKind : Kind → Value
  | .Invalid => .nil
  | .Bool => .bool false
  | .Int => .int .Int 0
  | .Int8 => .int .Int8 0
  | .Int16 => .int .Int16 0
  | .Int32 => .int .Int32 0
  | .Int64 => .int .Int64 0
  | .Uint => .uint .Uint 0
  | .Uint8 => .uint .Uint8 0
  | .Uint16 => .uint .Uint16 0
  | .Uint32 => .uint .Uint32 0
  | .Uint64 => .uint .Uint64 0
  | .Uintptr => .uint .Uintptr 0
  | .Float32 => .float .Float32 0
  | .Float64 => .float .Float64 0
  | .Complex64 => .complex .Complex64 0 0
  | .Complex128 => .complex .Complex128 0 0
  | .Array => .other .Array
  | .Chan => .other .Chan
  | .Func => .other .Func
  | .Interface => .other .Interface
  | .Map => .other .Map
  | .Ptr => .other .Ptr
  | .Slice => .slice []
  | .String => .string []
  | .Struct => .struct []
  | .UnsafePointer => .other .UnsafePointer

/-- A float value whose payload is a NaN. -/
def isNaNValue : Value → Bool
  | .float _ x => f64IsNaN x
  | _ => false

/-- The float64 bit pattern of a quiet NaN. -/
def f64NaN : Nat := 0x7FF8000000000000

/-- The float64 bit pattern of `1.0`. -/
def f64One : Nat := 0x3FF0000000000000

/-- The error of a comparison between two values of different categories:
`errBadComparisonType` when one of them does not classify, `errBadComparison`
otherwise. -/
def mismatchError (a b : Value) : Error :=
  if (basicKind a).2 ≠ none ∨ (basicKind b).2 ≠ none then errBadComparisonType
  else errBadComparison

/-! ## The struct binder of `binder.go` -/

/-- Modelled from the spec: the value of a request parameter, whose type
`RequestParamValue` is declared outside the two files.  The specification
describes it as a typed accessor that yields a boolean, int64, uint64, float64
and string reading of a raw representation, each conversion failing on its
own; the fields are what the methods `Bool()`, `Int64()`, `Uint64()`,
`Float64()` and `String()` return on this value (a value and an error, `none`
for `nil`). -/
structure RequestParamValue where
  /-- The pair returned by `Bool()`. -/
  bool : Bool × Option Error
  /-- The pair returned by `Int64()`. -/
  int64 : Int × Option Error
  /-- The pair returned by `Uint64()`. -/
  uint64 : Nat × Option Error
  /-- The pair returned by `Float64()`, the number as a bit pattern. -/
  float64 : Nat × Option Error
  /-- The bytes returned by `String()`. -/
  string : List Nat

/-- Modelled from the spec: a request parameter, whose type `RequestParam` is
declared outside the two files: a pair of a name and a value. -/
structure RequestParam where
  /-- The field `Name`. -/
  Name : String
  /-- The result of the method `Value()`. -/
  Value : RequestParamValue

/-- The number of bits of a signed integer kind (`int` is the 64-bit `int`). -/
def IntKind.bits : IntKind → Nat
  | .Int => 64 | .Int8 => 8 | .Int16 => 16 | .Int32 => 32 | .Int64 => 64

/-- The number of bits of an unsigned integer kind (`uint` and `uintptr` are
64 bits wide). -/
def UintKind.bits : UintKind → Nat
  | .Uint => 64 | .Uint8 => 8 | .Uint16 => 16 | .Uint32 => 32 | .Uint64 => 64 | .Uintptr => 64

/-- The conversion of an integer to a signed integer of `bits` bits, keeping
the low bits (two's complement). -/
def wrapInt (bits : Nat) (x : Int) : Int :=
  (x + 2 ^ (bits - 1)) % 2 ^ bits - 2 ^ (bits - 1)

/-- The conversion of a natural number to an unsigned integer of `bits` bits. -/
def wrapUint (bits : Nat) (x : Nat) : Nat := x % 2 ^ bits

/-- The `for _, p := range params` loop of `bindParams`, which leaves in `pv`
the value of the first parameter named `name`, or `nil`. -/
def findParam (name : String) : List RequestParam → Option RequestParamValue
  | [] => none
  | p :: params => if p.Name = name then some p.Value else findParam name params

/-- The `switch tf.Type.Kind()` of `bindParams` on a field with the parameter
value `pv`: the new value of the field, or `none` in the `default` case.
`SetInt` and `SetUint` keep the low bits that fit the field, `SetFloat` on a
float32 field stores `float32(x)`; that conversion belongs to the Go runtime
and is the parameter `toFloat32` (its result widened back to float64).
`Uintptr` is not among the cases of the switch. -/
def setField (toFloat32 : Nat → Nat) (vf : Value) (pv : RequestParamValue) : Option Value :=
  match vf with
  | .bool _ => some (.bool pv.bool.1)
  | .int k _ => some (.int k (wrapInt k.bits pv.int64.1))
  | .uint .Uintptr _ => none
  | .uint k _ => some (.uint k (wrapUint k.bits pv.uint64.1))
  | .float .Float32 _ => some (.float .Float32 (toFloat32 pv.float64.1))
  | .float .Float64 _ => some (.float .Float64 pv.float64.1)
  | .string _ => some (.string pv.string)
  | _ => none

mutual
/-- The method `bindParams`, on the value `v` points to.  The result is the
returned error together with the value the target holds afterwards. -/
def bindParams (toFloat32 : Nat → Nat) (v : Value) (params : List RequestParam) :
    Option Error × Value :=
  match v with
  | .struct fields =>
    let r := bindFields toFloat32 fields params
    (r.1, .struct r.2)
  | _ => (some errNotStruct, v)
/-- The `for i := 0; i < typ.NumField(); i++` loop of `bindParams`, on the
fields that are left.  The result is the returned error together with these
fields as they are afterwards. -/
def bindFields (toFloat32 : Nat → Nat) (fields : List Field) (params : List RequestParam) :
    Option Error × List Field :=
  match fields with
  | [] => (none, [])
  | .mk name settable vf :: rest =>
    if !settable then
      let r := bindFields toFloat32 rest params
      (r.1, .mk name settable vf :: r.2)
    else
      match vf with
      | .struct sub =>
        let r := bindParams toFloat32 (.struct sub) params
        match r.1 with
        | some err => (some err, .mk name settable r.2 :: rest)
        | none =>
          let r2 := bindFields toFloat32 rest params
          (r2.1, .mk name settable r.2 :: r2.2)
      | _ =>
        match findParam name params with
        | none =>
          let r := bindFields toFloat32 rest params
          (r.1, .mk name settable vf :: r.2)
        | some pv =>
          match setField toFloat32 vf pv with
          | none => (some errUnknownType, .mk name settable vf :: rest)
          | some vf2 =>
            let r := bindFields toFloat32 rest params
            (r.1, .mk name settable vf2 :: r.2)
end

/-! ## Reference definitions for the struct binder -/

/-- The scalar kinds the binder coerces a failing conversion for: bool, the
int family, the uint family and the float family. -/
def isConvertedKind : Value → Bool
  | .bool _ => true
  | .int _ _ => true
  | .uint .Uintptr _ => false
  | .uint _ _ => true
  | .float _ _ => true
  | _ => false

/-- The scalar kinds of the binder: the converted kinds and string. -/
def isScalarKind : Value → Bool
  | .string _ => true
  | v => isConvertedKind v

/-- The error of the conversion the binder asks of `pv` for a field holding
`vf`: that of `Bool()`, `Int64()`, `Uint64()` or `Float64()`; a string is
copied and never fails. -/
def conversionError (vf : Value) (pv : RequestParamValue) : Option Error :=
  match vf with
  | .bool _ => pv.bool.2
  | .int _ _ => pv.int64.2
  | .uint _ _ => pv.uint64.2
  | .float _ _ => pv.float64.2
  | _ => none

/-- The first parameter of the list whose name is exactly `name`. -/
def firstNamed (name : String) (params : List RequestParam) : Option RequestParam :=
  params.find? (fun p => decide (p.Name = name))

/-- The coercion table of the specification: the value a scalar field holds
once the parameter value `pv` is coerced to its kind (a field of another kind
is left as it is). -/
def coerced (toFloat32 : Nat → Nat) (vf : Value) (pv : RequestParamValue) : Value :=
  match vf with
  | .bool _ => .bool pv.bool.1
  | .int k _ => .int k (wrapInt k.bits pv.int64.1)
  | .uint k _ => .uint k (wrapUint k.bits pv.uint64.1)
  | .float .Float32 _ => .float .Float32 (toFloat32 pv.float64.1)
  | .float .Float64 _ => .float .Float64 pv.float64.1
  | .string _ => .string pv.string
  | v => v

/-- A field after a bind of scalar fields: a settable field with a parameter
of its name holds the coerced value of the first such parameter, every other
field is as before. -/
def boundField (toFloat32 : Nat → Nat) (params : List RequestParam) (f : Field) : Field :=
  if f.settable then
    match firstNamed f.name params with
    | some p => .mk f.name f.settable (coerced toFloat32 f.value p.Value)
    | none => f
  else f

/-- The conversion `float32(x)` on the numbers that a float32 holds exactly,
where it changes nothing; the examples below use no other number. -/
def exactFloat32 (x : Nat) : Nat := x

/-- The parameter value of the text `Alice`: no conversion succeeds. -/
def pvAlice : RequestParamValue where
  bool := (false, some (.external "invalid syntax"))
  int64 := (0, some (.external "invalid syntax"))
  uint64 := (0, some (.external "invalid syntax"))
  float64 := (0, some (.external "invalid syntax"))
  string := [65, 108, 105, 99, 101]

/-- The parameter value of the text `30`. -/
def pv30 : RequestParamValue where
  bool := (false, some (.external "invalid syntax"))
  int64 := (30, none)
  uint64 := (30, none)
  float64 := (0x403E000000000000, none)
  string := [51, 48]

/-- The parameter value of the text `notanumber`: no conversion succeeds, and
each failed conversion returns the zero value with its error. -/
def pvNotANumber : RequestParamValue where
  bool := (false, some (.external "invalid syntax"))
  int64 := (0, some (.external "invalid syntax"))
  uint64 := (0, some (.external "invalid syntax"))
  float64 := (0, some (.external "invalid syntax"))
  string := [110, 111, 116, 97, 110, 117, 109, 98, 101, 114]

/-- One turn of the field loop on a settable field, as a function of the
field alone: the error that ends the loop (if any) and the value of the field
after the turn. -/
def fieldStep (toFloat32 : Nat → Nat) (name : String) (vf : Value)
    (params : List RequestParam) : Option Error × Value :=
  match vf with
  | .struct sub => bindParams toFloat32 (.struct sub) params
  | _ =>
    match findParam name params with
    | none => (none, vf)
    | some pv =>
      match setField toFloat32 vf pv with
      | none => (some errUnknownType, vf)
      | some vf2 => (none, vf2)

/-- The kinds the switch of the binder has no case for: everything that is
neither a scalar of the binder nor a struct (slice, map, pointer, interface,
complex, uintptr, ...). -/
def isUnsupportedKind : Value → Bool
  | .struct _ => false
  | v => !isScalarKind v

/-- The truncation of an integer to a signed integer of `bits` bits in the
words of the specification: the residue modulo `2 ^ bits`, read as a negative
number when its top bit is set. -/
def truncSigned (bits : Nat) (x : Int) : Int :=
  if x % 2 ^ bits < 2 ^ (bits - 1) then x % 2 ^ bits else x % 2 ^ bits - 2 ^ bits

/-- The parameter value of the text `300`. -/
def pv300 : RequestParamValue where
  bool := (false, some (.external "invalid syntax"))
  int64 := (300, none)
  uint64 := (300, none)
  float64 := (0x4072C00000000000, none)
  string := [51, 48, 48]

/-- The parameter value of the text `1`. -/
def pv1 : RequestParamValue where
  bool := (true, none)
  int64 := (1, none)
  uint64 := (1, none)
  float64 := (0x3FF0000000000000, none)
  string := [49]

/-- The parameter value of the text `2`. -/
def pv2 : RequestParamValue where
  bool := (false, some (.external "invalid syntax"))
  int64 := (2, none)
  uint64 := (2, none)
  float64 := (0x4000000000000000, none)
  string := [50]

/-! ## The content negotiation of `binder.go` -/

/-- Modelled from the spec: the request, whose type `Request` is declared
outside the two files, reduced to what `bind` reads and writes: the method,
the body (`none` for a nil `Body`, otherwise its bytes), the value of the
`content-type` header, the parameter list returned by `Params()`, and the
status of the response the request points to. -/
structure Request where
  /-- The field `Method`. -/
  Method : String
  /-- The field `Body`. -/
  Body : Option (List Nat)
  /-- The result of `Header("content-type").Value()`. -/
  contentType : String
  /-- The result of `Params()`. -/
  Params : List RequestParam
  /-- The field `response.Status`. -/
  Status : Nat

/-- The packages `bind` calls into: the media type parser and the decoders.
Each decoder takes the body and the target and returns its error with the
target as it leaves it. -/
structure Codecs where
  /-- The function `mime.ParseMediaType`: the media type and the error. -/
  parseMediaType : String → String × Option Error
  /-- The call `json.NewDecoder(r.Body).Decode(v)`. -/
  jsonDecode : List Nat → Value → Option Error × Value
  /-- The call `xml.NewDecoder(r.Body).Decode(v)`. -/
  xmlDecode : List Nat → Value → Option Error × Value
  /-- The call `msgpack.NewDecoder(r.Body).Decode(v)`. -/
  msgpackDecode : List Nat → Value → Option Error × Value
  /-- The call `ioutil.ReadAll(r.Body)`: the bytes read and the error. -/
  readAll : List Nat → List Nat × Option Error
  /-- Whether the target implements `proto.Message`. -/
  isProtoMessage : Value → Bool
  /-- The call `proto.Unmarshal(b, v.(proto.Message))` on a target that is a
  message. -/
  protoUnmarshal : List Nat → Value → Option Error × Value
  /-- The call `toml.DecodeReader(r.Body, v)`. -/
  tomlDecode : List Nat → Value → Option Error × Value

/-- What a call of `bind` leaves: the returned error (or the panic), the
target and the status of the response. -/
structure BindResult where
  /-- The returned error, or the panic. -/
  outcome : Except String (Option Error)
  /-- The target after the call. -/
  target : Value
  /-- The status of the response after the call. -/
  status : Nat

/-- The method `bind`, on the value `v` points to. -/
def bind (c : Codecs) (toFloat32 : Nat → Nat) (v : Value) (r : Request) : BindResult :=
  if r.Method = "GET" then
    let b := bindParams toFloat32 v r.Params
    ⟨.ok b.1, b.2, r.Status⟩
  else
    match r.Body with
    | none => ⟨.ok (some errEmptyBody), v, r.Status⟩
    | some body =>
      match c.parseMediaType r.contentType with
      | (_, some err) => ⟨.ok (some err), v, r.Status⟩
      | (mt, none) =>
        if mt = "application/json" then
          let d := c.jsonDecode body v
          ⟨.ok d.1, d.2, r.Status⟩
        else if mt = "application/xml" then
          let d := c.xmlDecode body v
          ⟨.ok d.1, d.2, r.Status⟩
        else if mt = "application/msgpack" ∨ mt = "application/x-msgpack" then
          let d := c.msgpackDecode body v
          ⟨.ok d.1, d.2, r.Status⟩
        else if mt = "application/protobuf" ∨ mt = "application/x-protobuf" then
          match c.readAll body with
          | (_, some err) => ⟨.ok (some err), v, r.Status⟩
          | (b, none) =>
            if c.isProtoMessage v then
              let d := c.protoUnmarshal b v
              ⟨.ok d.1, d.2, r.Status⟩
            else ⟨.error "interface conversion: not a proto.Message", v, r.Status⟩
        else if mt = "application/toml" ∨ mt = "application/x-toml" then
          let d := c.tomlDecode body v
          ⟨.ok d.1, d.2, r.Status⟩
        else if mt = "application/x-www-form-urlencoded" ∨ mt = "multipart/form-data" then
          let b := bindParams toFloat32 v r.Params
          ⟨.ok b.1, b.2, r.Status⟩
        else ⟨.ok (some errUnsupportedMedia), v, 415⟩

/-- The ten media types of the dispatch table. -/
def dispatchTable : List String :=
  ["application/json", "application/xml", "application/msgpack", "application/x-msgpack",
   "application/protobuf", "application/x-protobuf", "application/toml", "application/x-toml",
   "application/x-www-form-urlencoded", "multipart/form-data"]

/-- The two media types of the form-data path. -/
def formTypes : List String := ["application/x-www-form-urlencoded", "multipart/form-data"]

/-- Codecs for the examples: the media type parser on a header that is a bare
lower-case media type, which it returns as it is; every decoder rejects its
input and leaves the target alone. -/
def bareCodecs : Codecs where
  parseMediaType := fun h => (h, none)
  jsonDecode := fun _ v => (some (.external "unexpected end of JSON input"), v)
  xmlDecode := fun _ v => (some (.external "EOF"), v)
  msgpackDecode := fun _ v => (some (.external "EOF"), v)
  readAll := fun b => (b, none)
  isProtoMessage := fun _ => false
  protoUnmarshal := fun _ v => (some (.external "unexpected EOF"), v)
  tomlDecode := fun _ v => (some (.external "EOF"), v)

/-! ## The string functions of `renderer.go` -/

/-- The function `strlen`, on the runes of the string (`[]rune(s)`); a
`String` is a sequence of Unicode code points, that is a Go string that is
valid UTF-8. -/
def strlen (s : String) : Int := (s.data.length : Int)

/-- The slice expression `bt[start:end]` on a slice of length `len(bt)`, which
panics unless `0 ≤ start ≤ end ≤ cap(bt)`; `substr` never asks for an `end`
above `len(bt)`, so the bound is checked against the length. -/
def sliceRunes (bt : List Char) (start stop : Int) : Except String (List Char) :=
  if 0 ≤ start ∧ start ≤ stop ∧ stop ≤ (bt.length : Int) then
    pure ((bt.drop start.toNat).take (stop.toNat - start.toNat))
  else throw "runtime error: slice bounds out of range"

/-- The function `substr`.  `start` and `length` are Go `int`s (64 bits): the
sum `start + length` wraps around, and `%` by zero panics. -/
def substr (s : String) (start length : Int) : Except String String := do
  let bt := s.data
  let len : Int := (bt.length : Int)
  let start := if start < 0 then 0 else start
  let start ←
    if start > len then
      if len = 0 then throw "runtime error: integer divide by zero"
      else pure (start.tmod len)
    else pure start
  let stop :=
    if wrapInt 64 (start + length) > len - 1 then len
    else wrapInt 64 (start + length)
  let runes ← sliceRunes bt start stop
  pure (String.mk runes)

/-! # Theorems -/

/-! ## Basic lemmas -/

@[simp] theorem ok_bind {ε α β : Type} (x : α) (f : α → Except ε β) :
    (Except.ok x >>= f) = f x := rfl

@[simp] theorem error_bind {ε α β : Type} (e : ε) (f : α → Except ε β) :
    ((Except.error e : Except ε α) >>= f) = Except.error e := rfl

@[simp] theorem pure_eq_ok {ε α : Type} (x : α) : (pure x : Except ε α) = Except.ok x := rfl

@[simp] theorem throw_eq_error {ε α : Type} (e : ε) :
    (throw e : Except ε α) = Except.error e := rfl

@[simp] theorem basicKind_nil : basicKind .nil = (invalidKind, some errBadComparisonType) := rfl

@[simp] theorem basicKind_bool (b : Bool) : basicKind (.bool b) = (boolKind, none) := rfl

@[simp] theorem basicKind_int (k : IntKind) (i : Int) :
    basicKind (.int k i) = (intKind, none) := by
  cases k <;> rfl

@[simp] theorem basicKind_uint (k : UintKind) (n : Nat) :
    basicKind (.uint k n) = (uintKind, none) := by
  cases k <;> rfl

@[simp] theorem basicKind_float (k : FloatKind) (x : Nat) :
    basicKind (.float k x) = (floatKind, none) := by
  cases k <;> rfl

@[simp] theorem basicKind_complex (k : ComplexKind) (re im : Nat) :
    basicKind (.complex k re im) = (complexKind, none) := by
  cases k <;> rfl

@[simp] theorem basicKind_string (s : List Nat) :
    basicKind (.string s) = (stringKind, none) := rfl

@[simp] theorem basicKind_slice (xs : List Value) :
    basicKind (.slice xs) = (invalidKind, some errBadComparisonType) := rfl

@[simp] theorem basicKind_struct (fs : List Field) :
    basicKind (.struct fs) = (invalidKind, some errBadComparisonType) := rfl

@[simp] theorem basicKind_other (k : OtherKind) :
    basicKind (.other k) = (invalidKind, some errBadComparisonType) := by
  cases k <;> rfl

/-- The classifier returns the error exactly with the invalid category. -/
theorem basicKind_err_iff (v : Value) :
    (basicKind v).2 = none ↔ (basicKind v).1 ≠ invalidKind := by
  cases v <;> simp

/-- A value that classifies is described by its category alone. -/
theorem basicKind_of_valid (v : Value) (h : (basicKind v).2 = none) :
    basicKind v = ((basicKind v).1, none) := by
  rw [← h]

theorem eqTruth_same (k : typeKind) (a b : Value) (ha : basicKind a = (k, none))
    (hb : basicKind b = (k, none)) : eqTruth k a b = .ok (sameValue a b) := by
  cases a <;> simp at ha <;> subst ha <;> cases b <;> simp at hb <;>
    simp [eqTruth, sameValue, Value.Bool, Value.Int, Value.Uint, Value.Float, Value.Complex,
      Value.String, c128Eq]

theorem eqLoop_same (a : Value) (k : typeKind) (ha : basicKind a = (k, none)) :
    ∀ rest : List Value, (∀ b ∈ rest, basicKind b = basicKind a) →
      eqLoop a k rest = .ok (rest.any (sameValue a), none)
  | [], _ => rfl
  | b :: rest, h => by
    have hb : basicKind b = (k, none) := by rw [h b (List.mem_cons_self _ _), ha]
    have ih := eqLoop_same a k ha rest (fun c hc => h c (List.mem_cons_of_mem _ hc))
    simp only [eqLoop, hb, eqTruth_same k a b ha hb]
    cases hs : sameValue a b <;> simp [ih, hs]

/-- What `eq` returns when the first argument classifies and the candidate
list is not empty: the result of the loop. -/
theorem eq_of_valid (a : Value) (k : typeKind) (ha : basicKind a = (k, none))
    (rest : List Value) (hne : rest ≠ []) : eq a rest = eqLoop a k rest := by
  cases rest with
  | nil => exact absurd rfl hne
  | cons b bs => simp [eq, ha]

/-! ## C1: `ne` -/

/-- Whatever its arguments, `ne` returns `true` with `errBadComparisonType`:
the candidate it hands to `eq` is a slice, which never classifies. -/
theorem ne_constant (a : Value) (rest : List Value) :
    ne a rest = .ok (true, some errBadComparisonType) := by
  cases a <;> simp [ne, eq, eqLoop]

/-- C1 (evaluation at the failing input): `eq(5, 5)` returns `(true, nil)`, so
the negation of `eq` with the same error is `(false, nil)`, but `ne(5, 5)`
returns `(true, errBadComparisonType)`; likewise `ne(5, 6)` does not return
`(true, nil)`.  The same pair is returned for every argument list. -/
theorem ne_not_negation_of_eq :
    eq (.int .Int 5) [.int .Int 5] = .ok (true, none) ∧
    ne (.int .Int 5) [.int .Int 5] = .ok (true, some errBadComparisonType) ∧
    eq (.int .Int 5) [.int .Int 6] = .ok (false, none) ∧
    ne (.int .Int 5) [.int .Int 6] = .ok (true, some errBadComparisonType) ∧
    ∀ (a : Value) (rest : List Value), ne a rest = .ok (true, some errBadComparisonType) :=
  ⟨rfl, rfl, rfl, rfl, ne_constant⟩

/-! ## C2: `eq` within one category -/

/-- C2: when `a` classifies, the candidate list is not empty and every
candidate classifies to the category of `a`, `eq` returns without an error,
and returns `true` exactly when some candidate equals `a` under the equality
of that category. -/
theorem eq_same_category (a : Value) (rest : List Value)
    (ha : (basicKind a).2 = none) (hne : rest ≠ [])
    (hcat : ∀ b ∈ rest, (basicKind b).2 = none ∧ (basicKind b).1 = (basicKind a).1) :
    eq a rest = .ok (rest.any (sameValue a), none) ∧
    (rest.any (sameValue a) = true ↔ ∃ b ∈ rest, sameValue a b = true) := by
  refine ⟨?_, by simp⟩
  have hk := basicKind_of_valid a ha
  rw [eq_of_valid a _ hk rest hne]
  apply eqLoop_same a _ hk
  intro b hb
  rw [basicKind_of_valid b (hcat b hb).1, (hcat b hb).2, ← hk]

/-- C2 at `eq(5, 5, 7)`, with the first operand declared `int8`, the
candidates `int` and `int64`: the result is `(true, nil)`. -/
theorem eq_same_category_witness :
    eq (.int .Int8 5) [.int .Int 5, .int .Int64 7] = .ok (true, none) :=
  (eq_same_category (.int .Int8 5) [.int .Int 5, .int .Int64 7] rfl (by simp) (by simp)).1

/-! ## C3: comparisons across categories -/

/-- Candidates of the category of `a` that are not equal to `a` are passed
over by the loop of `eq`. -/
theorem eqLoop_append (a : Value) (k : typeKind) (ha : basicKind a = (k, none))
    (rest : List Value) :
    ∀ pre : List Value, (∀ c ∈ pre, (basicKind c).1 = k ∧ sameValue a c = false) →
      eqLoop a k (pre ++ rest) = eqLoop a k rest
  | [], _ => rfl
  | c :: pre, h => by
    have hc := h c (List.mem_cons_self _ _)
    have hk : k ≠ invalidKind := by
      have := (basicKind_err_iff a).1 (by rw [ha])
      rwa [ha] at this
    have hcv : basicKind c = (k, none) := by
      have h2 : (basicKind c).2 = none := (basicKind_err_iff c).2 (by rw [hc.1]; exact hk)
      rw [basicKind_of_valid c h2, hc.1]
    have ih := eqLoop_append a k ha rest pre (fun d hd => h d (List.mem_cons_of_mem _ hd))
    simp [eqLoop, hcv, eqTruth_same k a c ha hcv, hc.2, ih]

/-- The loop of `eq` stops with an error at a candidate of another category. -/
theorem eqLoop_mismatch (a b : Value) (k : typeKind) (ha : basicKind a = (k, none))
    (hdiff : (basicKind b).1 ≠ k) (post : List Value) :
    eqLoop a k (b :: post) = .ok (false, some (mismatchError a b)) := by
  cases b <;> simp at hdiff <;> simp [eqLoop, mismatchError, ha, Ne.symm hdiff]

/-- C3 (counterexample): `eq(5, 5, "a")` returns `(true, nil)` although the
last candidate is a string and the first argument an integer. -/
theorem eq_mixed_categories_no_error :
    (basicKind (.string [97])).1 ≠ (basicKind (.int .Int 5)).1 ∧
    eq (.int .Int 5) [.int .Int 5, .string [97]] = .ok (true, none) :=
  ⟨by decide, rfl⟩

/-- C3 (amended): `lt`, `le`, `gt` and `ge` on two arguments of different
categories return `false` and an error; `eq` returns `false` and an error when
the candidate of a different category is preceded only by candidates of the
category of `a` that are not equal to `a`, whatever follows it. -/
theorem never_mixes_categories (a b : Value) (pre post : List Value)
    (hdiff : (basicKind b).1 ≠ (basicKind a).1)
    (hpre : ∀ c ∈ pre, (basicKind c).1 = (basicKind a).1 ∧ sameValue a c = false) :
    lt a b = .ok (false, some (mismatchError a b)) ∧
    le a b = .ok (false, some (mismatchError a b)) ∧
    gt a b = .ok (false, some (mismatchError a b)) ∧
    ge a b = .ok (false, some (mismatchError a b)) ∧
    eq a (pre ++ b :: post) = .ok (false, some (mismatchError a b)) := by
  have hlt : lt a b = .ok (false, some (mismatchError a b)) := by
    cases a <;> cases b <;> simp at hdiff <;> simp [lt, mismatchError]
  refine ⟨hlt, by simp [le, hlt], by simp [gt, le, hlt], by simp [ge, hlt], ?_⟩
  cases hv : (basicKind a).2 with
  | some e =>
    have h1 : (basicKind a).1 = invalidKind := by
      by_contra hc
      rw [(basicKind_err_iff a).2 hc] at hv
      exact Option.noConfusion hv
    cases a <;> simp at h1 <;> simp [eq, mismatchError]
  | none =>
    have hk := basicKind_of_valid a hv
    rw [eq_of_valid a _ hk _ (by simp), eqLoop_append a _ hk _ pre hpre,
      eqLoop_mismatch a b _ hk hdiff]

/-- C3 (amended) at `lt("a", 1)` and at `eq(5, 6, "a", 5)`. -/
theorem never_mixes_categories_witness :
    lt (.int .Int 5) (.string [97]) = .ok (false, some errBadComparison) ∧
    le (.int .Int 5) (.string [97]) = .ok (false, some errBadComparison) ∧
    gt (.int .Int 5) (.string [97]) = .ok (false, some errBadComparison) ∧
    ge (.int .Int 5) (.string [97]) = .ok (false, some errBadComparison) ∧
    eq (.int .Int 5) ([.int .Int 6] ++ .string [97] :: [.int .Int 5]) =
      .ok (false, some errBadComparison) :=
  never_mixes_categories (.int .Int 5) (.string [97]) [.int .Int 6] [.int .Int 5]
    (by decide) (by simp [sameValue])

/-! ## C4: `lt` -/

/-- C4: `lt` never panics and returns what the reference gives, for every pair
of values; `lt(1, 2)` is `(true, nil)` and `lt(true, false)` is an error. -/
theorem lt_eq_ltRef :
    (∀ a b : Value, lt a b = .ok (ltRef a b)) ∧
    lt (.int .Int 1) (.int .Int 2) = .ok (true, none) ∧
    lt (.bool true) (.bool false) = .ok (false, some errBadComparisonType) := by
  refine ⟨?_, rfl, rfl⟩
  intro a b
  cases a <;> cases b <;>
    simp [lt, ltRef, nativeLt, Value.Int, Value.Uint, Value.Float, Value.String]

/-! ## C5: `gt` against `lt` with the arguments swapped -/

/-- The byte-wise order is the lexicographic order of the byte lists. -/
theorem strLt_iff_lex : ∀ x y : List Nat, strLt x y = true ↔ List.Lex (· < ·) x y
  | _, [] => by cases ‹List Nat› <;> simp [strLt]
  | [], b :: bs => by simp [strLt, List.Lex.nil]
  | a :: as, b :: bs => by
    have ih := strLt_iff_lex as bs
    simp only [strLt, Bool.or_eq_true, Bool.and_eq_true, decide_eq_true_eq, ih]
    constructor
    · rintro (h | ⟨rfl, h⟩)
      · exact List.Lex.rel h
      · exact List.Lex.cons h
    · intro h
      cases h with
      | cons h => exact Or.inr ⟨rfl, h⟩
      | rel h => exact Or.inl h

/-- Two byte strings are in exactly one of the relations `<`, `=`, `>`. -/
theorem strLt_swap : ∀ x y : List Nat, (!(strLt x y || x == y)) = strLt y x
  | [], [] => rfl
  | [], _ :: _ => rfl
  | _ :: _, [] => rfl
  | a :: as, b :: bs => by
    have ih := strLt_swap as bs
    rcases Nat.lt_trichotomy a b with h | h | h
    · have h1 : ¬ b < a := by omega
      have h2 : ¬ b = a := by omega
      simp [strLt, h, h1, h2]
    · subst h
      simpa [strLt] using ih
    · have h1 : ¬ a < b := by omega
      have h2 : ¬ a = b := by omega
      simp [strLt, h, h1, h2]

/-- Two floats that are not NaN are in exactly one of the relations. -/
theorem f64Lt_swap (x y : Nat) (hx : f64IsNaN x = false) (hy : f64IsNaN y = false) :
    (!(f64Lt x y || f64Eq x y)) = f64Lt y x := by
  rcases lt_trichotomy (f64Key x) (f64Key y) with h | h | h
  · have h1 : ¬ f64Key y < f64Key x := by omega
    have h2 : ¬ f64Key x = f64Key y := by omega
    simp [f64Lt, f64Eq, hx, hy, h, h1, h2]
  · simp [f64Lt, f64Eq, hx, hy, h]
  · have h1 : ¬ f64Key x < f64Key y := by omega
    have h2 : ¬ f64Key x = f64Key y := by omega
    simp [f64Lt, f64Eq, hx, hy, h, h1, h2]

/-- Away from NaN the property holds: for two values of one valid category,
neither of them a NaN, `gt(a, b)` returns what `lt(b, a)` returns. -/
theorem gt_eq_lt_swap_of_not_nan (a b : Value) (ha : (basicKind a).2 = none)
    (hcat : (basicKind a).1 = (basicKind b).1)
    (hna : isNaNValue a = false) (hnb : isNaNValue b = false) :
    gt a b = lt b a := by
  cases a <;> simp at ha <;> cases b <;> simp at hcat <;>
    simp [gt, le, lt, eq, eqLoop, eqTruth, Value.Int, Value.Uint, Value.Float, Value.String,
      Value.Bool, Value.Complex]
  · rename_i k i k2 j
    rcases lt_trichotomy i j with h | h | h
    · have h1 : ¬ j < i := by omega
      simp [h, h1]
    · simp [h]
    · have h1 : ¬ i < j := by omega
      have h2 : ¬ i = j := by omega
      simp [h, h1, h2]
  · rename_i k i k2 j
    rcases Nat.lt_trichotomy i j with h | h | h
    · have h1 : ¬ j < i := by omega
      simp [h, h1]
    · simp [h]
    · have h1 : ¬ i < j := by omega
      have h2 : ¬ i = j := by omega
      simp [h, h1, h2]
  · rename_i k x k2 y
    simp [isNaNValue] at hna hnb
    have := f64Lt_swap x y hna hnb
    cases h1 : f64Lt x y <;> cases h2 : f64Eq x y <;> simp [h1, h2] at this ⊢ <;> simp [← this]
  · rename_i x y
    have := strLt_swap x y
    cases h1 : strLt x y <;> cases h2 : (x == y) <;> simp [h1, h2] at this ⊢ <;>
      simp_all

/-- The float model at a few landmarks: `1.0 < 2.0`, `-1.0 < 1.0`, the two
zeros are equal, every finite number is below `+Inf`, and a NaN is neither
equal to nor below anything, itself included. -/
theorem f64_landmarks :
    f64Lt f64One 0x4000000000000000 = true ∧
    f64Lt 0xBFF0000000000000 f64One = true ∧
    f64Eq 0x8000000000000000 0 = true ∧
    f64Lt 0x8000000000000000 0 = false ∧
    f64Lt 0x7FEFFFFFFFFFFFFF 0x7FF0000000000000 = true ∧
    f64Eq f64NaN f64NaN = false ∧
    f64Lt f64NaN f64One = false ∧
    f64Lt f64One f64NaN = false := by
  decide

/-- C5 (evaluation at the failing input): with `a` a NaN and `b = 1.0`, both of
the float category, `gt(a, b)` returns `(true, nil)` whereas `lt(b, a)` returns
`(false, nil)`: `lt(a, b)` and `eq(a, b)` are both false, so `le(a, b)` is
false and its inverse is true. -/
theorem gt_nan_differs_from_lt_swapped :
    (basicKind (.float .Float64 f64NaN)).2 = none ∧
    (basicKind (.float .Float64 f64NaN)).1 = (basicKind (.float .Float64 f64One)).1 ∧
    lt (.float .Float64 f64NaN) (.float .Float64 f64One) = .ok (false, none) ∧
    eq (.float .Float64 f64NaN) [.float .Float64 f64One] = .ok (false, none) ∧
    le (.float .Float64 f64NaN) (.float .Float64 f64One) = .ok (false, none) ∧
    gt (.float .Float64 f64NaN) (.float .Float64 f64One) = .ok (true, none) ∧
    lt (.float .Float64 f64One) (.float .Float64 f64NaN) = .ok (false, none) :=
  ⟨rfl, rfl, rfl, rfl, rfl, rfl, rfl⟩

/-! ## C6: `le` -/

/-- C6: when `lt(a, b)` and `eq(a, b)` both return without an error, `le(a, b)`
returns their disjunction without an error. -/
theorem le_eq_lt_or_eq (a b : Value) (l e : Bool)
    (hlt : lt a b = .ok (l, none)) (heq : eq a [b] = .ok (e, none)) :
    le a b = .ok (l || e, none) := by
  cases l <;> simp [le, hlt, heq]

/-- C6 at `le(2, 2)`: `lt` is false, `eq` is true, `le` is true. -/
theorem le_eq_lt_or_eq_witness :
    lt (.int .Int 2) (.int .Int 2) = .ok (false, none) ∧
    eq (.int .Int 2) [.int .Int 2] = .ok (true, none) ∧
    le (.int .Int 2) (.int .Int 2) = .ok (true, none) :=
  ⟨rfl, rfl, le_eq_lt_or_eq (.int .Int 2) (.int .Int 2) false true rfl rfl⟩

/-! ## C7: the error cases of `eq` -/

/-- C7: `eq` on a valid first argument and no candidate returns
`errNoComparison`; on two values of different valid categories it returns
`errBadComparison`; on a first argument that does not classify it returns
`errBadComparisonType`, whatever the candidates, the empty list included. -/
theorem eq_error_cases (a b : Value) (rest : List Value) :
    ((basicKind a).2 = none → eq a [] = .ok (false, some errNoComparison)) ∧
    ((basicKind a).2 = none → (basicKind b).2 = none → (basicKind a).1 ≠ (basicKind b).1 →
      eq a [b] = .ok (false, some errBadComparison)) ∧
    ((basicKind a).2 ≠ none → eq a rest = .ok (false, some errBadComparisonType) ∧
      eq a [] = .ok (false, some errBadComparisonType)) := by
  refine ⟨?_, ?_, ?_⟩
  · intro ha
    cases a <;> simp at ha <;> simp [eq]
  · intro ha hb hne
    cases a <;> simp at ha <;> cases b <;> simp at hb <;> simp at hne <;> simp [eq, eqLoop]
  · intro ha
    cases a <;> simp at ha <;> simp [eq]

/-- C7 at `eq(true)`, `eq("a", 1)` and `eq(nil, 1)`, `eq(nil)`. -/
theorem eq_error_cases_witness :
    eq (.bool true) [] = .ok (false, some errNoComparison) ∧
    eq (.string [97]) [.int .Int 1] = .ok (false, some errBadComparison) ∧
    eq .nil [.int .Int 1] = .ok (false, some errBadComparisonType) ∧
    eq .nil [] = .ok (false, some errBadComparisonType) :=
  ⟨(eq_error_cases (.bool true) .nil []).1 rfl,
   (eq_error_cases (.string [97]) (.int .Int 1) []).2.1 rfl rfl (by decide),
   ((eq_error_cases .nil .nil [.int .Int 1]).2.2 (by decide)).1,
   ((eq_error_cases .nil .nil [.int .Int 1]).2.2 (by decide)).2⟩

/-! ## C8: the classifier -/

/-- C8: `basicKind` is defined on every value and depends on its kind only:
it returns the category of the table, with `errBadComparisonType` exactly when
the category is `invalidKind`; every runtime kind is the kind of some value;
and the table sends the scalar kinds to their categories and each of the other
kinds to `invalidKind`. -/
theorem basicKind_total :
    (∀ v : Value, basicKind v =
      (categoryOf v.Kind,
        if categoryOf v.Kind = invalidKind then some errBadComparisonType else none)) ∧
    (∀ v : Value, (basicKind v).2 ≠ none ↔ (basicKind v).1 = invalidKind) ∧
    (∀ v : Value, (basicKind v).2 = none ∨ (basicKind v).2 = some errBadComparisonType) ∧
    (∀ k : Kind, (valueOfKind k).Kind = k) ∧
    (∀ k : Kind, categoryOf k = boolKind ↔ k = .Bool) ∧
    (∀ k : Kind, categoryOf k = intKind ↔ k ∈ [Kind.Int, .Int8, .Int16, .Int32, .Int64]) ∧
    (∀ k : Kind, categoryOf k = uintKind ↔
      k ∈ [Kind.Uint, .Uint8, .Uint16, .Uint32, .Uint64, .Uintptr]) ∧
    (∀ k : Kind, categoryOf k = floatKind ↔ k ∈ [Kind.Float32, .Float64]) ∧
    (∀ k : Kind, categoryOf k = complexKind ↔ k ∈ [Kind.Complex64, .Complex128]) ∧
    (∀ k : Kind, categoryOf k = stringKind ↔ k = .String) ∧
    (∀ k : Kind, categoryOf k = invalidKind ↔
      k ∈ [Kind.Invalid, .Slice, .Map, .Array, .Struct, .Ptr, .Func, .Chan, .Interface,
        .UnsafePointer]) := by
  refine ⟨?_, ?_, ?_, ?_, ?_, ?_, ?_, ?_, ?_, ?_, ?_⟩
  · intro v
    cases v with
    | int k i => cases k <;> rfl
    | uint k n => cases k <;> rfl
    | float k x => cases k <;> rfl
    | complex k re im => cases k <;> rfl
    | other k => cases k <;> rfl
    | _ => rfl
  · intro v
    cases v <;> simp
  · intro v
    cases v <;> simp
  · intro k
    cases k <;> rfl
  all_goals
    intro k
    cases k <;> simp [categoryOf]

/-! ## The struct binder: basic lemmas -/

/-- The loop over the parameters finds the first parameter of the name. -/
theorem findParam_eq_firstNamed (name : String) :
    ∀ params : List RequestParam,
      findParam name params = (firstNamed name params).map (fun p => p.Value)
  | [] => rfl
  | p :: params => by
    have ih := findParam_eq_firstNamed name params
    by_cases h : p.Name = name
    · simp [findParam, firstNamed, h]
    · simpa [findParam, firstNamed, h] using ih

/-- The first parameter of a name is preceded by no parameter of that name. -/
theorem firstNamed_append (name : String) (pre post : List RequestParam) (p : RequestParam)
    (hp : p.Name = name) (hpre : ∀ q ∈ pre, q.Name ≠ name) :
    firstNamed name (pre ++ p :: post) = some p := by
  induction pre with
  | nil => simp [firstNamed, hp]
  | cons q pre ih =>
    have hq : q.Name ≠ name := hpre q (List.mem_cons_self _ _)
    have := ih (fun r hr => hpre r (List.mem_cons_of_mem _ hr))
    simpa [firstNamed, hq] using this

/-- No parameter is found exactly when no parameter has the name. -/
theorem firstNamed_eq_none (name : String) (params : List RequestParam) :
    firstNamed name params = none ↔ ∀ q ∈ params, q.Name ≠ name := by
  simp [firstNamed]

/-- On a scalar field the switch of the binder stores the coerced value. -/
theorem setField_of_scalar (toFloat32 : Nat → Nat) (vf : Value) (pv : RequestParamValue)
    (h : isScalarKind vf = true) : setField toFloat32 vf pv = some (coerced toFloat32 vf pv) := by
  cases vf with
  | uint k n => cases k <;> simp [isScalarKind, isConvertedKind] at h <;> rfl
  | float k x => cases k <;> rfl
  | bool b => rfl
  | int k i => rfl
  | string s => rfl
  | _ => simp [isScalarKind, isConvertedKind] at h

/-- A scalar field is not a struct. -/
theorem kind_ne_struct_of_scalar (vf : Value) (h : isScalarKind vf = true) :
    vf.Kind ≠ .Struct := by
  cases vf with
  | int k i => cases k <;> simp [Value.Kind, IntKind.toKind]
  | uint k n => cases k <;> simp [Value.Kind, UintKind.toKind]
  | float k x => cases k <;> simp [Value.Kind, FloatKind.toKind]
  | bool b => simp [Value.Kind]
  | string s => simp [Value.Kind]
  | _ => simp [isScalarKind, isConvertedKind] at h

/-- The step of the field loop on a field that is not settable. -/
theorem bindFields_not_settable (toFloat32 : Nat → Nat) (name : String) (vf : Value)
    (rest : List Field) (params : List RequestParam) :
    bindFields toFloat32 (.mk name false vf :: rest) params =
      ((bindFields toFloat32 rest params).1,
        .mk name false vf :: (bindFields toFloat32 rest params).2) := by
  simp [bindFields]

/-- The step of the field loop on a settable field that is not a struct and
has no parameter of its name. -/
theorem bindFields_no_param (toFloat32 : Nat → Nat) (name : String) (vf : Value)
    (rest : List Field) (params : List RequestParam) (hs : vf.Kind ≠ .Struct)
    (hfind : findParam name params = none) :
    bindFields toFloat32 (.mk name true vf :: rest) params =
      ((bindFields toFloat32 rest params).1,
        .mk name true vf :: (bindFields toFloat32 rest params).2) := by
  cases vf <;> simp [Value.Kind] at hs <;> simp [bindFields, hfind]

/-- The step of the field loop on a settable scalar field that has a parameter
of its name. -/
theorem bindFields_scalar_step (toFloat32 : Nat → Nat) (name : String) (vf : Value)
    (rest : List Field) (params : List RequestParam) (pv : RequestParamValue)
    (hk : isScalarKind vf = true) (hfind : findParam name params = some pv) :
    bindFields toFloat32 (.mk name true vf :: rest) params =
      ((bindFields toFloat32 rest params).1,
        .mk name true (coerced toFloat32 vf pv) :: (bindFields toFloat32 rest params).2) := by
  have hset := setField_of_scalar toFloat32 vf pv hk
  cases vf <;> simp [isScalarKind, isConvertedKind] at hk <;> simp [bindFields, hfind, hset]

/-- The field loop on a settable first field: the turn of that field, then
the remaining fields unless the turn ended with an error. -/
theorem bindFields_cons (toFloat32 : Nat → Nat) (name : String) (vf : Value)
    (rest : List Field) (params : List RequestParam) :
    bindFields toFloat32 (.mk name true vf :: rest) params =
      match (fieldStep toFloat32 name vf params).1 with
      | some err => (some err, .mk name true (fieldStep toFloat32 name vf params).2 :: rest)
      | none =>
        ((bindFields toFloat32 rest params).1,
          .mk name true (fieldStep toFloat32 name vf params).2 ::
            (bindFields toFloat32 rest params).2) := by
  cases hfind : findParam name params with
  | none => cases vf <;> simp [bindFields, fieldStep, hfind]
  | some pv =>
    cases hset : setField toFloat32 vf pv <;> cases vf <;>
      simp [bindFields, fieldStep, hfind, hset]

/-- The field loop on a list of fields in two parts, when the first part ends
without an error: the second part is processed as it would be on its own. -/
theorem bindFields_append (toFloat32 : Nat → Nat) (params : List RequestParam)
    (post : List Field) :
    ∀ (pre pre2 : List Field), bindFields toFloat32 pre params = (none, pre2) →
      bindFields toFloat32 (pre ++ post) params =
        ((bindFields toFloat32 post params).1, pre2 ++ (bindFields toFloat32 post params).2)
  | [], pre2, h => by
    simp [bindFields] at h
    subst h
    simp
  | .mk name settable vf :: pre, pre2, h => by
    cases hr : bindFields toFloat32 pre params with
    | mk e pre3 =>
      cases settable with
      | false =>
        rw [bindFields_not_settable, hr] at h
        simp only [Prod.mk.injEq] at h
        obtain ⟨he, h2⟩ := h
        subst he h2
        rw [List.cons_append, bindFields_not_settable,
          bindFields_append toFloat32 params post pre pre3 hr]
        simp
      | true =>
        rw [bindFields_cons] at h
        rw [List.cons_append, bindFields_cons]
        cases hstep : (fieldStep toFloat32 name vf params).1 with
        | some err => simp [hstep] at h
        | none =>
          simp only [hstep, hr, Prod.mk.injEq] at h
          obtain ⟨he, h2⟩ := h
          subst he h2
          simp [bindFields_append toFloat32 params post pre pre3 hr]

/-! ## C9: a conversion that fails -/

/-- C9 (counterexample): the target `{Age int}` holding `Age = 7`, bound with
the parameter `("Age", "notanumber")` whose `Int64()` fails and returns `0`
with its error, ends as `{Age: 0}`: the field does not keep the value it had.
More generally, whatever a parameter value returns from `Int64()`, some prior
value of the field is not kept. -/
theorem bindParams_failed_conversion_overwrites :
    conversionError (.int .Int 7) pvNotANumber ≠ none ∧
    bindParams exactFloat32 (.struct [.mk "Age" true (.int .Int 7)]) [⟨"Age", pvNotANumber⟩] =
      (none, .struct [.mk "Age" true (.int .Int 0)]) ∧
    Value.struct [.mk "Age" true (.int .Int 0)] ≠ .struct [.mk "Age" true (.int .Int 7)] ∧
    ∀ (toFloat32 : Nat → Nat) (pv : RequestParamValue), ∃ prior : Int,
      (bindParams toFloat32 (.struct [.mk "Age" true (.int .Int prior)]) [⟨"Age", pv⟩]).2 ≠
        .struct [.mk "Age" true (.int .Int prior)] := by
  refine ⟨by simp [conversionError, pvNotANumber], rfl, by simp, ?_⟩
  intro toFloat32 pv
  refine ⟨wrapInt 64 pv.int64.1 + 1, ?_⟩
  simp [bindParams, bindFields, findParam, setField, IntKind.bits]

/-- C9 (amended): when the field loop reaches a settable field of a converted
kind (bool, int family, uint family, float family) that has a parameter of its
name whose conversion fails, the field receives the value the failed
conversion returned, coerced to the kind of the field, the remaining fields
are processed as they would be on their own, and the error returned is theirs:
the failed conversion adds none. -/
theorem bindParams_failed_conversion (toFloat32 : Nat → Nat) (pre pre2 post : List Field)
    (name : String) (vf : Value) (params : List RequestParam) (p : RequestParam)
    (hkind : isConvertedKind vf = true)
    (hfirst : firstNamed name params = some p)
    (hfail : conversionError vf p.Value ≠ none)
    (hpre : bindFields toFloat32 pre params = (none, pre2)) :
    bindParams toFloat32 (.struct (pre ++ .mk name true vf :: post)) params =
      ((bindFields toFloat32 post params).1,
        .struct (pre2 ++ .mk name true (coerced toFloat32 vf p.Value) ::
          (bindFields toFloat32 post params).2)) := by
  have _ := hfail
  have hk : isScalarKind vf = true := by
    cases vf <;> simp [isConvertedKind] at hkind <;> simp [isScalarKind, isConvertedKind, hkind]
  have hfind : findParam name params = some p.Value := by
    rw [findParam_eq_firstNamed, hfirst]
    rfl
  simp only [bindParams]
  rw [bindFields_append toFloat32 params _ pre pre2 hpre,
    bindFields_scalar_step toFloat32 name vf post params p.Value hk hfind]

/-- C9 (amended) at the target `{Age int}` holding the zero value and the
parameter `("Age", "notanumber")`: the result is `{Age: 0}` and no error. -/
theorem bindParams_failed_conversion_witness :
    bindParams exactFloat32 (.struct ([] ++ .mk "Age" true (.int .Int 0) :: []))
        [⟨"Age", pvNotANumber⟩] =
      ((bindFields exactFloat32 [] [⟨"Age", pvNotANumber⟩]).1,
        .struct ([] ++ .mk "Age" true (coerced exactFloat32 (.int .Int 0) pvNotANumber) ::
          (bindFields exactFloat32 [] [⟨"Age", pvNotANumber⟩]).2)) ∧
    bindParams exactFloat32 (.struct [.mk "Age" true (.int .Int 0)]) [⟨"Age", pvNotANumber⟩] =
      (none, .struct [.mk "Age" true (.int .Int 0)]) :=
  ⟨bindParams_failed_conversion exactFloat32 [] [] [] "Age" (.int .Int 0)
      [⟨"Age", pvNotANumber⟩] ⟨"Age", pvNotANumber⟩ rfl rfl
      (by simp [conversionError, pvNotANumber]) rfl,
    rfl⟩

/-! ## C10: a bind of scalar fields -/

/-- The field loop on fields of which the settable ones are all scalar. -/
theorem bindFields_scalar (toFloat32 : Nat → Nat) (params : List RequestParam) :
    ∀ fields : List Field,
      (∀ f ∈ fields, f.settable = true → isScalarKind f.value = true) →
      bindFields toFloat32 fields params = (none, fields.map (boundField toFloat32 params))
  | [], _ => rfl
  | .mk name settable vf :: rest, h => by
    have ih := bindFields_scalar toFloat32 params rest
      (fun f hf => h f (List.mem_cons_of_mem _ hf))
    cases settable with
    | false => simp [bindFields_not_settable, ih, boundField, Field.settable]
    | true =>
      have hk : isScalarKind vf = true := h (.mk name true vf) (List.mem_cons_self _ _) rfl
      have hf := findParam_eq_firstNamed name params
      cases hfirst : firstNamed name params with
      | none =>
        rw [hfirst] at hf
        have hs : vf.Kind ≠ .Struct := kind_ne_struct_of_scalar vf hk
        rw [bindFields_no_param toFloat32 name vf rest params hs hf, ih]
        simp [boundField, Field.settable, Field.name, hfirst]
      | some p =>
        rw [hfirst] at hf
        rw [bindFields_scalar_step toFloat32 name vf rest params p.Value hk hf, ih]
        simp [boundField, Field.settable, Field.name, Field.value, hfirst]

/-- C10: on a struct whose settable fields are all scalar, `bindParams` returns
no error, and afterwards every settable field with a parameter of exactly its
name holds the coerced value of the first such parameter of the list, every
other field being as before; the first parameter of a name is the one that no
parameter of that name precedes.  (The conversions need not succeed for
this.) -/
theorem bindParams_scalar (toFloat32 : Nat → Nat) (fields : List Field)
    (params : List RequestParam)
    (hscalar : ∀ f ∈ fields, f.settable = true → isScalarKind f.value = true) :
    bindParams toFloat32 (.struct fields) params =
      (none, .struct (fields.map (boundField toFloat32 params))) ∧
    (∀ (f : Field) (pre post : List RequestParam) (p : RequestParam),
      f.settable = true → params = pre ++ p :: post → p.Name = f.name →
      (∀ q ∈ pre, q.Name ≠ f.name) →
      boundField toFloat32 params f =
        .mk f.name true (coerced toFloat32 f.value p.Value)) ∧
    (∀ f : Field, (f.settable = false ∨ ∀ q ∈ params, q.Name ≠ f.name) →
      boundField toFloat32 params f = f) := by
  refine ⟨?_, ?_, ?_⟩
  · simp [bindParams, bindFields_scalar toFloat32 params fields hscalar]
  · intro f pre post p hs hp hname hpre
    subst hp
    simp [boundField, hs, firstNamed_append f.name pre post p hname hpre]
  · intro f h
    rcases h with h | h
    · simp [boundField, h]
    · simp [boundField, (firstNamed_eq_none f.name params).2 h]

/-- C10 at the target `{Name string; Age int}` and the parameters
`[("Name", "Alice"), ("Age", "30")]`: the result is `{Name: "Alice", Age: 30}`
and no error. -/
theorem bindParams_scalar_witness :
    bindParams exactFloat32
        (.struct [.mk "Name" true (.string []), .mk "Age" true (.int .Int 0)])
        [⟨"Name", pvAlice⟩, ⟨"Age", pv30⟩] =
      (none, .struct [.mk "Name" true (.string [65, 108, 105, 99, 101]),
        .mk "Age" true (.int .Int 30)]) :=
  (bindParams_scalar exactFloat32
    [.mk "Name" true (.string []), .mk "Age" true (.int .Int 0)]
    [⟨"Name", pvAlice⟩, ⟨"Age", pv30⟩]
    (by simp [Field.value, isScalarKind, isConvertedKind])).1

/-! ## C19: the comparison functions never panic -/

/-- The loop of `eq` returns for every list of candidates, when the first
argument has classified to `k`. -/
theorem eqLoop_returns (a : Value) (k : typeKind) (ha : basicKind a = (k, none)) :
    ∀ rest : List Value, ∃ r, eqLoop a k rest = .ok r
  | [] => ⟨_, rfl⟩
  | b :: rest => by
    obtain ⟨r, hr⟩ := eqLoop_returns a k ha rest
    cases hb : basicKind b with
    | mk k2 e =>
      cases e with
      | some err => exact ⟨(false, some err), by simp [eqLoop, hb]⟩
      | none =>
        by_cases hk : k = k2
        · subst hk
          cases hs : sameValue a b <;>
            simp [eqLoop, hb, eqTruth_same k a b ha hb, hs, hr]
        · exact ⟨(false, some errBadComparison), by simp [eqLoop, hb, hk]⟩

/-- The function `eq` returns for every argument list. -/
theorem eq_returns (a : Value) (rest : List Value) : ∃ r, eq a rest = .ok r := by
  cases ha : basicKind a with
  | mk k e =>
    cases e with
    | some err => exact ⟨(false, some err), by simp [eq, ha]⟩
    | none =>
      cases rest with
      | nil => exact ⟨(false, some errNoComparison), by simp [eq, ha]⟩
      | cons b bs =>
        obtain ⟨r, hr⟩ := eqLoop_returns a k ha (b :: bs)
        exact ⟨r, by rw [eq_of_valid a k ha _ (by simp), hr]⟩

/-- The function `lt` returns the reference result for every pair. -/
theorem lt_returns (a b : Value) : lt a b = .ok (ltRef a b) := by
  cases a <;> cases b <;>
    simp [lt, ltRef, nativeLt, Value.Int, Value.Uint, Value.Float, Value.String]

/-- C19: no call of `eq`, `lt`, `le`, `gt` or `ge` panics, neither with
`Invalid Kind` in the default case of the category switch nor in an accessor
of `reflect.Value`: each call returns a pair of a boolean and an error. -/
theorem comparisons_never_panic (a b : Value) (rest : List Value) :
    (∃ r, eq a rest = .ok r) ∧ (∃ r, lt a b = .ok r) ∧ (∃ r, le a b = .ok r) ∧
    (∃ r, gt a b = .ok r) ∧ (∃ r, ge a b = .ok r) := by
  have hlt := lt_returns a b
  obtain ⟨e, he⟩ := eq_returns a [b]
  have hle : ∃ r, le a b = .ok r := by
    by_cases h : ((ltRef a b).1 || (ltRef a b).2.isSome) = true
    · exact ⟨_, by simp only [le, hlt, ok_bind, h, if_true]; rfl⟩
    · exact ⟨e, by simp only [le, hlt, ok_bind, h]; simpa using he⟩
  refine ⟨eq_returns a rest, ⟨_, hlt⟩, hle, ?_, ?_⟩
  · obtain ⟨r, hr⟩ := hle
    by_cases h : r.2.isSome = true
    · exact ⟨_, by simp only [gt, hr, ok_bind, h, if_true]; rfl⟩
    · exact ⟨_, by simp only [gt, hr, ok_bind, h]; rfl⟩
  · by_cases h : (ltRef a b).2.isSome = true
    · exact ⟨_, by simp only [ge, hlt, ok_bind, h, if_true]; rfl⟩
    · exact ⟨_, by simp only [ge, hlt, ok_bind, h]; rfl⟩

/-! ## C20: the error of `lt` comes first -/

/-- C20: when `lt(a, b)` returns an error, `le`, `gt` and `ge` return `false`
with that error, whatever `eq(a, b)` returns; so on two booleans or two
complex numbers they return `errBadComparisonType` even when `eq` returns
`(true, nil)` on the pair. -/
theorem lt_error_short_circuits (a b : Value) (l : Bool) (e : Error)
    (hlt : lt a b = .ok (l, some e)) :
    l = false ∧
    le a b = .ok (false, some e) ∧ gt a b = .ok (false, some e) ∧
    ge a b = .ok (false, some e) ∧
    ((basicKind a = (boolKind, none) ∨ basicKind a = (complexKind, none)) →
      basicKind b = basicKind a → e = errBadComparisonType) := by
  have hl : l = false := by
    have h := lt_returns a b
    rw [hlt] at h
    have h2 : l = (ltRef a b).1 ∧ some e = (ltRef a b).2 := by
      cases hr : ltRef a b
      rw [hr] at h
      simpa using h
    have h3 : (ltRef a b).2 ≠ none → (ltRef a b).1 = false := by
      unfold ltRef
      split_ifs <;> simp
    rw [h2.1]
    exact h3 (by rw [← h2.2]; simp)
  subst hl
  refine ⟨rfl, by simp [le, hlt], by simp [gt, le, hlt], by simp [ge, hlt], ?_⟩
  intro hk hb
  have h := lt_returns a b
  rw [hlt] at h
  have h2 : ltRef a b = (false, some errBadComparisonType) := by
    rcases hk with hk | hk <;> simp [ltRef, hb, hk]
  rw [h2] at h
  simpa using h

/-- C20 at `true, true` and at two equal complex numbers: `eq` succeeds with
`true`, `le`, `gt` and `ge` return `errBadComparisonType`. -/
theorem lt_error_short_circuits_witness :
    eq (.bool true) [.bool true] = .ok (true, none) ∧
    (le (.bool true) (.bool true) = .ok (false, some errBadComparisonType) ∧
      gt (.bool true) (.bool true) = .ok (false, some errBadComparisonType) ∧
      ge (.bool true) (.bool true) = .ok (false, some errBadComparisonType)) ∧
    eq (.complex .Complex128 f64One 0) [.complex .Complex128 f64One 0] = .ok (true, none) ∧
    (le (.complex .Complex128 f64One 0) (.complex .Complex128 f64One 0) =
        .ok (false, some errBadComparisonType) ∧
      gt (.complex .Complex128 f64One 0) (.complex .Complex128 f64One 0) =
        .ok (false, some errBadComparisonType) ∧
      ge (.complex .Complex128 f64One 0) (.complex .Complex128 f64One 0) =
        .ok (false, some errBadComparisonType)) :=
  ⟨rfl,
   ⟨(lt_error_short_circuits (.bool true) (.bool true) false errBadComparisonType rfl).2.1,
    (lt_error_short_circuits (.bool true) (.bool true) false errBadComparisonType rfl).2.2.1,
    (lt_error_short_circuits (.bool true) (.bool true) false errBadComparisonType rfl).2.2.2.1⟩,
   rfl,
   ⟨(lt_error_short_circuits (.complex .Complex128 f64One 0) (.complex .Complex128 f64One 0)
      false errBadComparisonType rfl).2.1,
    (lt_error_short_circuits (.complex .Complex128 f64One 0) (.complex .Complex128 f64One 0)
      false errBadComparisonType rfl).2.2.1,
    (lt_error_short_circuits (.complex .Complex128 f64One 0) (.complex .Complex128 f64One 0)
      false errBadComparisonType rfl).2.2.2.1⟩⟩

/-! ## The struct binder: further lemmas -/

/-- The field loop on a list of fields in two parts, when the first part ends
with an error: the second part is left as it is. -/
theorem bindFields_append_err (toFloat32 : Nat → Nat) (params : List RequestParam)
    (post : List Field) (e : Error) :
    ∀ (pre pre2 : List Field), bindFields toFloat32 pre params = (some e, pre2) →
      bindFields toFloat32 (pre ++ post) params = (some e, pre2 ++ post)
  | [], pre2, h => by simp [bindFields] at h
  | .mk name settable vf :: pre, pre2, h => by
    cases hr : bindFields toFloat32 pre params with
    | mk e2 pre3 =>
      cases settable with
      | false =>
        rw [bindFields_not_settable, hr] at h
        simp only [Prod.mk.injEq] at h
        obtain ⟨he, h2⟩ := h
        subst he h2
        rw [List.cons_append, bindFields_not_settable,
          bindFields_append_err toFloat32 params post e pre pre3 hr]
        simp
      | true =>
        rw [bindFields_cons] at h
        rw [List.cons_append, bindFields_cons]
        cases hstep : (fieldStep toFloat32 name vf params).1 with
        | some err =>
          simp only [hstep, Prod.mk.injEq] at h
          obtain ⟨he, h2⟩ := h
          subst h2
          simp [he]
        | none =>
          simp only [hstep, hr, Prod.mk.injEq] at h
          obtain ⟨he, h2⟩ := h
          subst he h2
          simp [bindFields_append_err toFloat32 params post e pre pre3 hr]

/-- A turn of the field loop on a field that is not a struct. -/
theorem fieldStep_of_not_struct (toFloat32 : Nat → Nat) (name : String) (vf : Value)
    (params : List RequestParam) (h : ∀ sub, vf ≠ .struct sub) :
    fieldStep toFloat32 name vf params =
      match findParam name params with
      | none => (none, vf)
      | some pv =>
        match setField toFloat32 vf pv with
        | none => (some errUnknownType, vf)
        | some vf2 => (none, vf2) := by
  cases vf with
  | struct sub => exact absurd rfl (h sub)
  | _ => rfl

/-- A turn of the field loop on a field that is not a struct returns no error
or the `unknown type` error. -/
theorem fieldStep_shape_of_not_struct (toFloat32 : Nat → Nat) (name : String) (vf : Value)
    (params : List RequestParam) (h : ∀ sub, vf ≠ .struct sub) :
    (fieldStep toFloat32 name vf params).1 = none ∨
      (fieldStep toFloat32 name vf params).1 = some errUnknownType := by
  rw [fieldStep_of_not_struct toFloat32 name vf params h]
  cases findParam name params with
  | none => simp
  | some pv => cases hset : setField toFloat32 vf pv <;> simp [hset]

mutual
/-- The only error the field loop returns is the `unknown type` error, and it
keeps the number of fields. -/
theorem bindFields_shape (toFloat32 : Nat → Nat) (params : List RequestParam) :
    (fields : List Field) →
      ((bindFields toFloat32 fields params).1 = none ∨
        (bindFields toFloat32 fields params).1 = some errUnknownType) ∧
      (bindFields toFloat32 fields params).2.length = fields.length
  | [] => by simp [bindFields]
  | .mk name false vf :: rest => by
    rw [bindFields_not_settable]
    simpa using bindFields_shape toFloat32 params rest
  | .mk name true vf :: rest => by
    have h1 := fieldStep_shape toFloat32 params name vf
    have h2 := bindFields_shape toFloat32 params rest
    rw [bindFields_cons]
    rcases h1 with h1 | h1 <;> simp [h1, h2]
/-- The only error a turn of the field loop returns is the `unknown type`
error. -/
theorem fieldStep_shape (toFloat32 : Nat → Nat) (params : List RequestParam) (name : String) :
    (vf : Value) →
      (fieldStep toFloat32 name vf params).1 = none ∨
        (fieldStep toFloat32 name vf params).1 = some errUnknownType
  | .struct sub => by
    simp only [fieldStep, bindParams]
    exact (bindFields_shape toFloat32 params sub).1
  | .nil | .bool _ | .int _ _ | .uint _ _ | .float _ _ | .complex _ _ _ | .string _
  | .slice _ | .other _ =>
    fieldStep_shape_of_not_struct toFloat32 name _ params (by intro sub h; cases h)
end

/-- The loop over the parameters finds one when some parameter has the name. -/
theorem findParam_isSome_of_mem (name : String) :
    ∀ (params : List RequestParam) (p : RequestParam), p ∈ params → p.Name = name →
      ∃ pv, findParam name params = some pv
  | [], p, hp, _ => by simp at hp
  | q :: params, p, hp, hname => by
    by_cases hq : q.Name = name
    · exact ⟨q.Value, by simp [findParam, hq]⟩
    · have hp2 : p ∈ params := by
        rcases List.mem_cons.1 hp with h | h
        · exact absurd (h ▸ hname) hq
        · exact h
      obtain ⟨pv, hpv⟩ := findParam_isSome_of_mem name params p hp2 hname
      exact ⟨pv, by simp [findParam, hq, hpv]⟩

/-- The switch of the binder has no case for an unsupported kind. -/
theorem setField_of_unsupported (toFloat32 : Nat → Nat) (vf : Value) (pv : RequestParamValue)
    (h : isUnsupportedKind vf = true) : setField toFloat32 vf pv = none := by
  cases vf with
  | uint k n =>
    cases k <;> first | rfl | simp [isUnsupportedKind, isScalarKind, isConvertedKind] at h
  | float k x => simp [isUnsupportedKind, isScalarKind, isConvertedKind] at h
  | bool b => simp [isUnsupportedKind, isScalarKind, isConvertedKind] at h
  | int k i => simp [isUnsupportedKind, isScalarKind, isConvertedKind] at h
  | string s => simp [isUnsupportedKind, isScalarKind, isConvertedKind] at h
  | struct sub => simp [isUnsupportedKind] at h
  | _ => rfl

/-! ## C11: a field of an unsupported kind -/

/-- C11: when a settable field of an unsupported kind has a parameter of
exactly its name, `bindParams` returns the `unknown type` error, and that
field and the fields declared after it are as they were before the call (the
fields declared before it may have been bound). -/
theorem bindParams_unsupported_field (toFloat32 : Nat → Nat) (pre post : List Field)
    (name : String) (vf : Value) (params : List RequestParam) (p : RequestParam)
    (hkind : isUnsupportedKind vf = true) (hp : p ∈ params) (hname : p.Name = name) :
    ∃ pre2 : List Field, pre2.length = pre.length ∧
      bindParams toFloat32 (.struct (pre ++ .mk name true vf :: post)) params =
        (some errUnknownType, .struct (pre2 ++ .mk name true vf :: post)) := by
  obtain ⟨pv, hpv⟩ := findParam_isSome_of_mem name params p hp hname
  have hns : ∀ sub, vf ≠ .struct sub := by
    intro sub h
    subst h
    simp [isUnsupportedKind] at hkind
  have hstep : fieldStep toFloat32 name vf params = (some errUnknownType, vf) := by
    rw [fieldStep_of_not_struct toFloat32 name vf params hns, hpv]
    simp [setField_of_unsupported toFloat32 vf pv hkind]
  have hhere : bindFields toFloat32 (.mk name true vf :: post) params =
      (some errUnknownType, .mk name true vf :: post) := by
    rw [bindFields_cons, hstep]
  have hshape := bindFields_shape toFloat32 params pre
  cases hr : bindFields toFloat32 pre params with
  | mk e pre2 =>
    rw [hr] at hshape
    refine ⟨pre2, hshape.2, ?_⟩
    cases e with
    | none =>
      simp only [bindParams]
      rw [bindFields_append toFloat32 params _ pre pre2 hr, hhere]
    | some err =>
      have he : err = errUnknownType := by simpa using hshape.1
      subst he
      simp only [bindParams]
      rw [bindFields_append_err toFloat32 params _ errUnknownType pre pre2 hr]

/-- C11 at the target `{Tags []string; Age int}` and the parameters
`[("Tags", "1"), ("Age", "30")]`: the error is `unknown type` and `Age` is
not bound. -/
theorem bindParams_unsupported_field_witness :
    ∃ pre2 : List Field, pre2.length = ([] : List Field).length ∧
      bindParams exactFloat32
          (.struct ([] ++ .mk "Tags" true (.slice []) :: [.mk "Age" true (.int .Int 0)]))
          [⟨"Tags", pv1⟩, ⟨"Age", pv30⟩] =
        (some errUnknownType,
          .struct (pre2 ++ .mk "Tags" true (.slice []) :: [.mk "Age" true (.int .Int 0)])) :=
  bindParams_unsupported_field exactFloat32 [] [.mk "Age" true (.int .Int 0)] "Tags" (.slice [])
    [⟨"Tags", pv1⟩, ⟨"Age", pv30⟩] ⟨"Tags", pv1⟩ rfl (by simp) rfl

/-! ## C15: integer fields keep the low bits -/

/-- The conversion done by `SetInt` is the truncation of the specification. -/
theorem wrapInt_eq_truncSigned (k : IntKind) (x : Int) :
    wrapInt k.bits x = truncSigned k.bits x := by
  cases k <;> simp only [wrapInt, truncSigned, IntKind.bits] <;> norm_num <;>
    split_ifs <;> omega

/-- C15: when the field loop reaches a settable integer field that has a
parameter of its name whose conversion to a 64-bit value `x` succeeds, a
signed field of `w` bits receives `x` modulo `2 ^ w` read as a signed number
and an unsigned field receives `x` modulo `2 ^ w`; the field adds no error.
The widths are 8, 16, 32 and 64, and an int8 field bound to `300` holds
`44`. -/
theorem bindParams_integer_truncation (toFloat32 : Nat → Nat) (pre pre2 post : List Field)
    (name : String) (params : List RequestParam) (p : RequestParam)
    (hfirst : firstNamed name params = some p)
    (hpre : bindFields toFloat32 pre params = (none, pre2)) :
    (∀ (k : IntKind) (old x : Int), p.Value.int64 = (x, none) →
      bindParams toFloat32 (.struct (pre ++ .mk name true (.int k old) :: post)) params =
        ((bindFields toFloat32 post params).1,
          .struct (pre2 ++ .mk name true (.int k (truncSigned k.bits x)) ::
            (bindFields toFloat32 post params).2))) ∧
    (∀ (k : UintKind) (old x : Nat), k ≠ .Uintptr → p.Value.uint64 = (x, none) →
      bindParams toFloat32 (.struct (pre ++ .mk name true (.uint k old) :: post)) params =
        ((bindFields toFloat32 post params).1,
          .struct (pre2 ++ .mk name true (.uint k (x % 2 ^ k.bits)) ::
            (bindFields toFloat32 post params).2))) ∧
    (∀ (k : IntKind) (x : Int),
      k.bits ∈ [8, 16, 32, 64] ∧
      (truncSigned k.bits x - x) % 2 ^ k.bits = 0 ∧
      -(2 ^ (k.bits - 1)) ≤ truncSigned k.bits x ∧ truncSigned k.bits x < 2 ^ (k.bits - 1)) ∧
    (∀ k : UintKind, k.bits ∈ [8, 16, 32, 64]) ∧
    truncSigned IntKind.Int8.bits 300 = 44 := by
  have hfind : findParam name params = some p.Value := by
    rw [findParam_eq_firstNamed, hfirst]
    rfl
  refine ⟨?_, ?_, ?_, ?_, by decide⟩
  · intro k old x hx
    simp only [bindParams]
    rw [bindFields_append toFloat32 params _ pre pre2 hpre,
      bindFields_scalar_step toFloat32 name (.int k old) post params p.Value rfl hfind]
    simp [coerced, hx, wrapInt_eq_truncSigned]
  · intro k old x hk hx
    have hs : isScalarKind (.uint k old) = true := by
      cases k <;> simp [isScalarKind, isConvertedKind] at hk ⊢
    simp only [bindParams]
    rw [bindFields_append toFloat32 params _ pre pre2 hpre,
      bindFields_scalar_step toFloat32 name (.uint k old) post params p.Value hs hfind]
    simp [coerced, hx, wrapUint]
  · intro k x
    cases k <;> simp only [truncSigned, IntKind.bits] <;> norm_num <;>
      split_ifs <;> omega
  · intro k
    cases k <;> simp [UintKind.bits]

/-- C15 at the target `{B int8}` and the parameter `("B", "300")`: the field
holds `44` and no error is returned. -/
theorem bindParams_integer_truncation_witness :
    bindParams exactFloat32 (.struct [.mk "B" true (.int .Int8 0)]) [⟨"B", pv300⟩] =
      (none, .struct [.mk "B" true (.int .Int8 44)]) :=
  (bindParams_integer_truncation exactFloat32 [] [] [] "B" [⟨"B", pv300⟩] ⟨"B", pv300⟩
    rfl rfl).1 .Int8 0 300 rfl

/-! ## C16: nested structs -/

/-- C16: when the field loop reaches a settable field that is a struct, the
nested struct is bound by `bindParams` with the very parameter list of the
outer call; an error of the nested call is returned at once, the outer fields
declared after the nested struct being left as they were; without an error the
loop goes on with them.  A nested struct of scalar fields is thus bound like
an outer one: each settable field receives the coerced value of the first
parameter of its own, unprefixed, name. -/
theorem bindParams_nested (toFloat32 : Nat → Nat) (pre pre2 post sub : List Field)
    (name : String) (params : List RequestParam)
    (hpre : bindFields toFloat32 pre params = (none, pre2)) :
    (bindParams toFloat32 (.struct (pre ++ .mk name true (.struct sub) :: post)) params =
      match (bindParams toFloat32 (.struct sub) params).1 with
      | some err =>
        (some err, .struct (pre2 ++
          .mk name true (bindParams toFloat32 (.struct sub) params).2 :: post))
      | none =>
        ((bindFields toFloat32 post params).1,
          .struct (pre2 ++ .mk name true (bindParams toFloat32 (.struct sub) params).2 ::
            (bindFields toFloat32 post params).2))) ∧
    ((∀ f ∈ sub, f.settable = true → isScalarKind f.value = true) →
      bindParams toFloat32 (.struct sub) params =
        (none, .struct (sub.map (boundField toFloat32 params)))) := by
  constructor
  · simp only [bindParams]
    rw [bindFields_append toFloat32 params _ pre pre2 hpre, bindFields_cons]
    simp only [fieldStep, bindParams]
    cases (bindFields toFloat32 sub params).1 <;> rfl
  · intro h
    simp [bindParams, bindFields_scalar toFloat32 params sub h]

/-- C16 at the target `{N int; Inner struct{N int}; M int}` and the parameters
`[("N", "30"), ("M", "1")]`: the outer and the nested `N` both hold `30`. -/
theorem bindParams_nested_witness :
    bindParams exactFloat32
        (.struct [.mk "N" true (.int .Int 0),
          .mk "Inner" true (.struct [.mk "N" true (.int .Int 0)]),
          .mk "M" true (.int .Int 0)])
        [⟨"N", pv30⟩, ⟨"M", pv1⟩] =
      (none, .struct [.mk "N" true (.int .Int 30),
          .mk "Inner" true (.struct [.mk "N" true (.int .Int 30)]),
          .mk "M" true (.int .Int 1)]) :=
  (bindParams_nested exactFloat32 [.mk "N" true (.int .Int 0)] [.mk "N" true (.int .Int 30)]
    [.mk "M" true (.int .Int 0)] [.mk "N" true (.int .Int 0)] "Inner"
    [⟨"N", pv30⟩, ⟨"M", pv1⟩] rfl).1

/-- A nested error ends the outer call: the target
`{Inner struct{Tags []string}; M int}` with `[("Tags", "1"), ("M", "1")]`
returns `unknown type` and `M` is not bound. -/
theorem bindParams_nested_error :
    bindParams exactFloat32
        (.struct [.mk "Inner" true (.struct [.mk "Tags" true (.slice [])]),
          .mk "M" true (.int .Int 0)])
        [⟨"Tags", pv1⟩, ⟨"M", pv1⟩] =
      (some errUnknownType,
        .struct [.mk "Inner" true (.struct [.mk "Tags" true (.slice [])]),
          .mk "M" true (.int .Int 0)]) := rfl

/-! ## C17: the fields the binder leaves alone -/

/-- A turn of the field loop on a settable field that is not a struct and has
no parameter of its name. -/
theorem fieldStep_no_param (toFloat32 : Nat → Nat) (name : String) (vf : Value)
    (params : List RequestParam) (hns : ∀ sub, vf ≠ .struct sub)
    (hno : ∀ q ∈ params, q.Name ≠ name) :
    fieldStep toFloat32 name vf params = (none, vf) := by
  have hfind : findParam name params = none := by
    rw [findParam_eq_firstNamed, (firstNamed_eq_none name params).2 hno]
    rfl
  rw [fieldStep_of_not_struct toFloat32 name vf params hns, hfind]

/-- A field that is not settable, or is settable, not a struct and without a
parameter of its name, is the same after the field loop. -/
theorem bindFields_frame (toFloat32 : Nat → Nat) (params : List RequestParam) :
    ∀ (fields : List Field) (i : Nat) (f : Field), fields[i]? = some f →
      (f.settable = false ∨
        ((∀ sub, f.value ≠ .struct sub) ∧ ∀ q ∈ params, q.Name ≠ f.name)) →
      (bindFields toFloat32 fields params).2[i]? = some f
  | [], i, f, h, _ => by simp at h
  | .mk name false vf :: rest, i, f, h, hc => by
    rw [bindFields_not_settable]
    cases i with
    | zero => simpa using h
    | succ j =>
      have h2 : rest[j]? = some f := by simpa using h
      simpa using bindFields_frame toFloat32 params rest j f h2 hc
  | .mk name true vf :: rest, i, f, h, hc => by
    rw [bindFields_cons]
    cases i with
    | zero =>
      have hf : f = .mk name true vf := by
        have : some (Field.mk name true vf) = some f := by simpa using h
        exact (Option.some.inj this).symm
      subst hf
      have hstep : fieldStep toFloat32 name vf params = (none, vf) := by
        rcases hc with hc | hc
        · simp [Field.settable] at hc
        · exact fieldStep_no_param toFloat32 name vf params hc.1 hc.2
      simp [hstep]
    | succ j =>
      have h2 : rest[j]? = some f := by simpa using h
      cases (fieldStep toFloat32 name vf params).1 with
      | some err => simpa using h2
      | none => simpa using bindFields_frame toFloat32 params rest j f h2 hc

/-- C17: a field that is not settable, and a settable field that is not a
struct and has no parameter of exactly its name, is the same after
`bindParams` as before, whatever its kind; and when the field loop reaches
such a field it goes on with the fields after it, so that the error returned
is theirs: the field adds none. -/
theorem bindParams_frame (toFloat32 : Nat → Nat) (params : List RequestParam) (f : Field)
    (hf : f.settable = false ∨
      ((∀ sub, f.value ≠ .struct sub) ∧ ∀ q ∈ params, q.Name ≠ f.name)) :
    (∀ (fields : List Field) (i : Nat), fields[i]? = some f →
      ∃ fields2, bindParams toFloat32 (.struct fields) params =
          ((bindFields toFloat32 fields params).1, .struct fields2) ∧
        fields2[i]? = some f) ∧
    (∀ pre pre2 post : List Field, bindFields toFloat32 pre params = (none, pre2) →
      bindParams toFloat32 (.struct (pre ++ f :: post)) params =
        ((bindFields toFloat32 post params).1,
          .struct (pre2 ++ f :: (bindFields toFloat32 post params).2))) ∧
    bindParams toFloat32 (.struct [f]) params = (none, .struct [f]) := by
  have hone : ∀ post : List Field, bindFields toFloat32 (f :: post) params =
      ((bindFields toFloat32 post params).1, f :: (bindFields toFloat32 post params).2) := by
    intro post
    cases f with
    | mk name settable vf =>
      cases settable with
      | false => exact bindFields_not_settable toFloat32 name vf post params
      | true =>
        rcases hf with hf | hf
        · simp [Field.settable] at hf
        · rw [bindFields_cons, fieldStep_no_param toFloat32 name vf params hf.1 hf.2]
  refine ⟨?_, ?_, ?_⟩
  · intro fields i hi
    exact ⟨_, rfl, bindFields_frame toFloat32 params fields i f hi hf⟩
  · intro pre pre2 post hpre
    simp only [bindParams]
    rw [bindFields_append toFloat32 params _ pre pre2 hpre, hone]
  · simp only [bindParams]
    rw [hone]
    rfl

/-- C17 at the targets `{secret int}`, whose field is not settable, and
`{Tags []string}`, with the parameter `("secret", "30")`: nothing changes and
no error is returned, although `Tags` is of an unsupported kind. -/
theorem bindParams_frame_witness :
    bindParams exactFloat32 (.struct [.mk "secret" false (.int .Int 7)]) [⟨"secret", pv30⟩] =
      (none, .struct [.mk "secret" false (.int .Int 7)]) ∧
    bindParams exactFloat32 (.struct [.mk "Tags" true (.slice [])]) [⟨"secret", pv30⟩] =
      (none, .struct [.mk "Tags" true (.slice [])]) :=
  ⟨(bindParams_frame exactFloat32 [⟨"secret", pv30⟩] (.mk "secret" false (.int .Int 7))
      (Or.inl rfl)).2.2,
   (bindParams_frame exactFloat32 [⟨"secret", pv30⟩] (.mk "Tags" true (.slice []))
      (Or.inr ⟨fun sub h => by simp [Field.value] at h, by simp [Field.name]⟩)).2.2⟩

/-! ## C14: the order of the parameters -/

mutual
/-- The field loop depends on the parameters only through the first parameter
of each name. -/
theorem bindFields_congr (toFloat32 : Nat → Nat) (p1 p2 : List RequestParam)
    (h : ∀ name, findParam name p1 = findParam name p2) :
    (fields : List Field) → bindFields toFloat32 fields p1 = bindFields toFloat32 fields p2
  | [] => by simp [bindFields]
  | .mk name false vf :: rest => by
    rw [bindFields_not_settable, bindFields_not_settable,
      bindFields_congr toFloat32 p1 p2 h rest]
  | .mk name true vf :: rest => by
    rw [bindFields_cons, bindFields_cons, fieldStep_congr toFloat32 p1 p2 h name vf,
      bindFields_congr toFloat32 p1 p2 h rest]
/-- A turn of the field loop depends on the parameters only through the first
parameter of each name. -/
theorem fieldStep_congr (toFloat32 : Nat → Nat) (p1 p2 : List RequestParam)
    (h : ∀ name, findParam name p1 = findParam name p2) (name : String) :
    (vf : Value) → fieldStep toFloat32 name vf p1 = fieldStep toFloat32 name vf p2
  | .struct sub => by
    simp only [fieldStep, bindParams]
    rw [bindFields_congr toFloat32 p1 p2 h sub]
  | .nil | .bool _ | .int _ _ | .uint _ _ | .float _ _ | .complex _ _ _ | .string _
  | .slice _ | .other _ => by
    rw [fieldStep_of_not_struct toFloat32 name _ p1 (by intro sub h; cases h),
      fieldStep_of_not_struct toFloat32 name _ p2 (by intro sub h; cases h), h name]
end

/-- In a list of parameters with pairwise different names, every parameter is
the first of its name. -/
theorem firstNamed_of_mem_nodup :
    ∀ (params : List RequestParam) (p : RequestParam),
      (params.map (fun q => q.Name)).Nodup → p ∈ params →
      firstNamed p.Name params = some p
  | [], p, _, hp => by simp at hp
  | q :: params, p, hnd, hp => by
    have hnd2 : (∀ x ∈ params, ¬x.Name = q.Name) ∧
        (List.map (fun q => q.Name) params).Nodup := by simpa using hnd
    rcases List.mem_cons.1 hp with h | h
    · subst h
      simp [firstNamed]
    · have hq : q.Name ≠ p.Name := fun heq => hnd2.1 p h heq.symm
      have ih := firstNamed_of_mem_nodup params p hnd2.2 h
      simpa [firstNamed, hq] using ih

/-- Two lists of parameters with pairwise different names that are
permutations of each other have the same first parameter of every name. -/
theorem firstNamed_perm (p1 p2 : List RequestParam) (hperm : p1.Perm p2)
    (hnd : (p1.map (fun q => q.Name)).Nodup) (name : String) :
    firstNamed name p1 = firstNamed name p2 := by
  have hnd2 : (p2.map (fun q => q.Name)).Nodup := (hperm.map _).nodup_iff.1 hnd
  cases h1 : firstNamed name p1 with
  | none =>
    have hno := (firstNamed_eq_none name p1).1 h1
    exact ((firstNamed_eq_none name p2).2 (fun q hq => hno q (hperm.mem_iff.2 hq))).symm
  | some p =>
    have hmem : p ∈ p1 := List.mem_of_find?_eq_some h1
    have hname : p.Name = name := by simpa using List.find?_some h1
    rw [← hname]
    exact (firstNamed_of_mem_nodup p2 p hnd2 (hperm.mem_iff.1 hmem)).symm

/-- C14 (counterexample): the target `{A int}` bound with
`[("A", "1"), ("A", "2")]` holds `1`, bound with the permutation
`[("A", "2"), ("A", "1")]` it holds `2`. -/
theorem bindParams_order_matters :
    List.Perm [(⟨"A", pv1⟩ : RequestParam), ⟨"A", pv2⟩] [⟨"A", pv2⟩, ⟨"A", pv1⟩] ∧
    bindParams exactFloat32 (.struct [.mk "A" true (.int .Int 0)]) [⟨"A", pv1⟩, ⟨"A", pv2⟩] =
      (none, .struct [.mk "A" true (.int .Int 1)]) ∧
    bindParams exactFloat32 (.struct [.mk "A" true (.int .Int 0)]) [⟨"A", pv2⟩, ⟨"A", pv1⟩] =
      (none, .struct [.mk "A" true (.int .Int 2)]) ∧
    Value.struct [.mk "A" true (.int .Int 1)] ≠ .struct [.mk "A" true (.int .Int 2)] :=
  ⟨List.Perm.swap _ _ _, rfl, rfl, by simp⟩

/-- C14 (amended): `bindParams` returns the same error and leaves the target
in the same state on two parameter lists that have the same first parameter of
every name; in particular on any permutation of a list whose parameters have
pairwise different names. -/
theorem bindParams_perm (toFloat32 : Nat → Nat) (v : Value) (p1 p2 : List RequestParam)
    (hperm : p1.Perm p2)
    (hfirst : (p1.map (fun q => q.Name)).Nodup ∨
      ∀ name, firstNamed name p1 = firstNamed name p2) :
    bindParams toFloat32 v p1 = bindParams toFloat32 v p2 := by
  have h : ∀ name, findParam name p1 = findParam name p2 := by
    intro name
    rw [findParam_eq_firstNamed, findParam_eq_firstNamed]
    rcases hfirst with hnd | hf
    · rw [firstNamed_perm p1 p2 hperm hnd name]
    · rw [hf name]
  cases v with
  | struct fields => simp only [bindParams, bindFields_congr toFloat32 p1 p2 h fields]
  | _ => rfl

/-- C14 (amended) at the target `{A int; B int}` and the parameters
`[("A", "1"), ("B", "2")]` in both orders. -/
theorem bindParams_perm_witness :
    bindParams exactFloat32 (.struct [.mk "A" true (.int .Int 0), .mk "B" true (.int .Int 0)])
        [⟨"A", pv1⟩, ⟨"B", pv2⟩] =
      bindParams exactFloat32 (.struct [.mk "A" true (.int .Int 0), .mk "B" true (.int .Int 0)])
        [⟨"B", pv2⟩, ⟨"A", pv1⟩] :=
  bindParams_perm exactFloat32 _ [⟨"A", pv1⟩, ⟨"B", pv2⟩] [⟨"B", pv2⟩, ⟨"A", pv1⟩]
    (List.Perm.swap _ _ _) (Or.inl (by decide))

/-! ## C12: the status of the response -/

/-- C12 (counterexample): a `GET` request whose `content-type` is
`text/plain`, a media type outside the dispatch table, is bound through its
parameters: `bind` returns no error and the status stays `200`.  A `POST`
request without a body and the same header returns the `empty body` error and
the status stays `200` too. -/
theorem bind_unlisted_type_without_415 :
    bareCodecs.parseMediaType "text/plain" = ("text/plain", none) ∧
    "text/plain" ∉ dispatchTable ∧
    (bind bareCodecs exactFloat32 (.struct []) ⟨"GET", none, "text/plain", [], 200⟩).outcome =
      .ok none ∧
    (bind bareCodecs exactFloat32 (.struct []) ⟨"GET", none, "text/plain", [], 200⟩).status =
      200 ∧
    (bind bareCodecs exactFloat32 (.struct []) ⟨"POST", none, "text/plain", [], 200⟩).outcome =
      .ok (some errEmptyBody) ∧
    (bind bareCodecs exactFloat32 (.struct []) ⟨"POST", none, "text/plain", [], 200⟩).status =
      200 :=
  ⟨rfl, by decide, rfl, rfl, rfl, rfl⟩

/-- C12 (amended): on a request that is not a `GET`, has a body and whose
header parses to a media type outside the dispatch table, `bind` returns the
`unsupported media type` error, leaves the target alone and sets the status
to 415; on every request whose media type is in the table, and on every
`GET` request, request without a body or request whose header does not parse,
the status is the one before the call, whatever the decoder does. -/
theorem bind_status (c : Codecs) (toFloat32 : Nat → Nat) (v : Value) (r : Request) :
    (r.Method ≠ "GET" → r.Body ≠ none → (c.parseMediaType r.contentType).2 = none →
      (c.parseMediaType r.contentType).1 ∉ dispatchTable →
      bind c toFloat32 v r = ⟨.ok (some errUnsupportedMedia), v, 415⟩) ∧
    ((c.parseMediaType r.contentType).1 ∈ dispatchTable →
      (bind c toFloat32 v r).status = r.Status) ∧
    ((r.Method = "GET" ∨ r.Body = none ∨ (c.parseMediaType r.contentType).2 ≠ none) →
      (bind c toFloat32 v r).status = r.Status) := by
  refine ⟨?_, ?_, ?_⟩
  · intro hm hb he hmt
    cases hbody : r.Body with
    | none => exact absurd hbody hb
    | some body =>
      cases hp : c.parseMediaType r.contentType with
      | mk mt e =>
        rw [hp] at he hmt
        simp only at he
        subst he
        simp only [dispatchTable, List.mem_cons, List.mem_singleton, not_or,
          List.not_mem_nil, not_false_eq_true, and_true] at hmt
        simp [bind, hm, hbody, hp, hmt]
  · intro hmt
    by_cases hm : r.Method = "GET"
    · simp [bind, hm]
    · cases hbody : r.Body with
      | none => simp [bind, hm, hbody]
      | some body =>
        cases hp : c.parseMediaType r.contentType with
        | mk mt e =>
          cases e with
          | some err => simp [bind, hm, hbody, hp]
          | none =>
            rw [hp] at hmt
            simp only [bind, hm, hbody, hp, if_false]
            simp only [dispatchTable, List.mem_cons, List.mem_singleton, List.not_mem_nil,
              or_false] at hmt
            split_ifs <;> first | rfl | (split <;> rfl) | simp_all
  · intro h
    by_cases hm : r.Method = "GET"
    · simp [bind, hm]
    · cases hbody : r.Body with
      | none => simp [bind, hm, hbody]
      | some body =>
        cases hp : c.parseMediaType r.contentType with
        | mk mt e =>
          cases e with
          | some err => simp [bind, hm, hbody, hp]
          | none => simp [hm, hbody, hp] at h

/-- C12 (amended) at a `POST` request with a body and the header `text/plain`:
the error is `unsupported media type` and the status becomes 415. -/
theorem bind_status_witness :
    bind bareCodecs exactFloat32 (.struct []) ⟨"POST", some [], "text/plain", [], 200⟩ =
      ⟨.ok (some errUnsupportedMedia), .struct [], 415⟩ :=
  (bind_status bareCodecs exactFloat32 (.struct [])
    ⟨"POST", some [], "text/plain", [], 200⟩).1 (by decide) (by simp) rfl (by decide)

/-! ## C13: `GET` against the form-data path -/

/-- C13: `bind` on a `GET` request, whatever its body and its header, and
`bind` on a request that is not a `GET`, has a body and a header that parses
to one of the two form media types, return the same error and leave the
target in the same state when the two requests carry the same parameters:
both are `bindParams` on the target and the parameters. -/
theorem bind_get_eq_form (c : Codecs) (toFloat32 : Nat → Nat) (v : Value)
    (rGet rForm : Request) (body : List Nat) (mt : String)
    (hget : rGet.Method = "GET") (hform : rForm.Method ≠ "GET")
    (hbody : rForm.Body = some body)
    (hparse : c.parseMediaType rForm.contentType = (mt, none)) (hmt : mt ∈ formTypes)
    (hparams : rGet.Params = rForm.Params) :
    (bind c toFloat32 v rGet).outcome = (bind c toFloat32 v rForm).outcome ∧
    (bind c toFloat32 v rGet).target = (bind c toFloat32 v rForm).target ∧
    (bind c toFloat32 v rGet).outcome = .ok (bindParams toFloat32 v rGet.Params).1 ∧
    (bind c toFloat32 v rGet).target = (bindParams toFloat32 v rGet.Params).2 := by
  have hg : bind c toFloat32 v rGet =
      ⟨.ok (bindParams toFloat32 v rGet.Params).1, (bindParams toFloat32 v rGet.Params).2,
        rGet.Status⟩ := by
    simp [bind, hget]
  have hf : bind c toFloat32 v rForm =
      ⟨.ok (bindParams toFloat32 v rForm.Params).1, (bindParams toFloat32 v rForm.Params).2,
        rForm.Status⟩ := by
    simp only [formTypes, List.mem_cons, List.mem_singleton, List.not_mem_nil, or_false] at hmt
    rcases hmt with h | h <;> subst h <;> simp [bind, hform, hbody, hparse]
  rw [hg, hf, hparams]
  exact ⟨rfl, rfl, rfl, rfl⟩

/-- C13 at the target `{Age int}` and the parameter `("Age", "30")`, through a
`GET` request with a JSON header and no body and through a `POST` request with
a form header. -/
theorem bind_get_eq_form_witness :
    (bind bareCodecs exactFloat32 (.struct [.mk "Age" true (.int .Int 0)])
        ⟨"GET", none, "application/json", [⟨"Age", pv30⟩], 200⟩).outcome =
      (bind bareCodecs exactFloat32 (.struct [.mk "Age" true (.int .Int 0)])
        ⟨"POST", some [], "multipart/form-data", [⟨"Age", pv30⟩], 200⟩).outcome ∧
    (bind bareCodecs exactFloat32 (.struct [.mk "Age" true (.int .Int 0)])
        ⟨"GET", none, "application/json", [⟨"Age", pv30⟩], 200⟩).target =
      (bind bareCodecs exactFloat32 (.struct [.mk "Age" true (.int .Int 0)])
        ⟨"POST", some [], "multipart/form-data", [⟨"Age", pv30⟩], 200⟩).target :=
  ⟨(bind_get_eq_form bareCodecs exactFloat32 (.struct [.mk "Age" true (.int .Int 0)])
      ⟨"GET", none, "application/json", [⟨"Age", pv30⟩], 200⟩
      ⟨"POST", some [], "multipart/form-data", [⟨"Age", pv30⟩], 200⟩ [] "multipart/form-data"
      rfl (by decide) rfl rfl (by decide) rfl).1,
   (bind_get_eq_form bareCodecs exactFloat32 (.struct [.mk "Age" true (.int .Int 0)])
      ⟨"GET", none, "application/json", [⟨"Age", pv30⟩], 200⟩
      ⟨"POST", some [], "multipart/form-data", [⟨"Age", pv30⟩], 200⟩ [] "multipart/form-data"
      rfl (by decide) rfl rfl (by decide) rfl).2.1⟩

/-! ## C18: `substr` -/

/-- The addition of two Go `int`s that stay below `2 ^ 63` does not wrap. -/
theorem wrapInt_64_of_small (x : Int) (h0 : 0 ≤ x) (h1 : x < 2 ^ 63) : wrapInt 64 x = x := by
  simp only [wrapInt]
  norm_num at h1 ⊢
  omega

/-- A slice expression within the bounds returns the runes between them. -/
theorem sliceRunes_ok (bt : List Char) (a b : Nat) (hab : a ≤ b) (hb : b ≤ bt.length) :
    sliceRunes bt (a : Int) (b : Int) = .ok ((bt.drop a).take (b - a)) := by
  have hc : 0 ≤ (a : Int) ∧ (a : Int) ≤ (b : Int) ∧ (b : Int) ≤ (bt.length : Int) :=
    ⟨by omega, by omega, by omega⟩
  unfold sliceRunes
  rw [if_pos hc]
  rfl

/-- What `substr` returns once the start is at most the number of runes. -/
theorem substr_of_start_le (s : String) (start length : Nat)
    (hsum : start + length < 2 ^ 63) (hle : start ≤ s.data.length) :
    substr s start length = .ok (String.mk ((s.data.drop start).take length)) := by
  have hw : wrapInt 64 ((start : Int) + (length : Int)) = (start : Int) + (length : Int) := by
    apply wrapInt_64_of_small
    · omega
    · have : ((start + length : Nat) : Int) < 2 ^ 63 := by exact_mod_cast hsum
      simpa using this
  have h1 : ¬ ((start : Int) < 0) := by omega
  have h2 : ¬ ((start : Int) > (s.data.length : Int)) := by omega
  unfold substr
  simp only [h1, if_false]
  rw [if_neg h2, pure_eq_ok, ok_bind, hw]
  by_cases hc : (start : Int) + (length : Int) > (s.data.length : Int) - 1
  · rw [if_pos hc, sliceRunes_ok s.data start s.data.length hle (le_refl _), ok_bind,
      pure_eq_ok]
    have ht : (s.data.drop start).length ≤ length := by
      rw [List.length_drop]
      omega
    rw [List.take_of_length_le ht, List.take_of_length_le (by rw [List.length_drop])]
  · have e : (start : Int) + (length : Int) = ((start + length : Nat) : Int) := by
      push_cast
      rfl
    rw [if_neg hc, e, sliceRunes_ok s.data start (start + length) (by omega) (by omega),
      ok_bind, pure_eq_ok, Nat.add_sub_cancel_left]

/-- C18 (counterexample): `substr("abc", 4, 1)` is `"b"`, not the empty
string, although the start is beyond the three runes; and
`substr("", 1, 0)` does not return: the remainder by the zero length
panics. -/
theorem substr_start_beyond_length :
    strlen "abc" = 3 ∧
    substr "abc" 4 1 = .ok "b" ∧
    strlen "" = 0 ∧
    substr "" 1 0 = .error "runtime error: integer divide by zero" :=
  ⟨rfl, rfl, rfl, rfl⟩

/-- C18 (amended): for non-negative `start` and `length` whose sum is below
`2 ^ 63`, `substr` returns the runes of `s` at the indexes `i` with
`a ≤ i < min (a + length) (strlen s)`, where `a` is `start` when
`start ≤ strlen s` and the remainder of `start` by `strlen s` when
`start > strlen s > 0`; `strlen s` is the number of runes of `s`. -/
theorem substr_spec (s : String) (start length : Nat) (hsum : start + length < 2 ^ 63)
    (hlen : start ≤ s.data.length ∨ 0 < s.data.length) :
    strlen s = (s.data.length : Int) ∧
    substr s start length =
      .ok (String.mk ((s.data.drop
        (if start ≤ s.data.length then start else start % s.data.length)).take length)) ∧
    ∀ i : Nat,
      ((s.data.drop
        (if start ≤ s.data.length then start else start % s.data.length)).take length)[i]? =
        if i < length then
          s.data[(if start ≤ s.data.length then start else start % s.data.length) + i]?
        else none := by
  refine ⟨rfl, ?_, ?_⟩
  · by_cases hle : start ≤ s.data.length
    · simp only [hle, if_true]
      exact substr_of_start_le s start length hsum hle
    · have hpos : 0 < s.data.length := by
        rcases hlen with h | h
        · exact absurd h hle
        · exact h
      have hmod : start % s.data.length < s.data.length := Nat.mod_lt _ hpos
      have hmodle : start % s.data.length ≤ start := Nat.mod_le _ _
      have key := substr_of_start_le s (start % s.data.length) length (by omega) (by omega)
      simp only [hle, if_false]
      rw [← key]
      have h1 : ¬ ((start : Int) < 0) := by omega
      have h2 : (start : Int) > (s.data.length : Int) := by omega
      have h3 : ¬ ((s.data.length : Int) = 0) := by omega
      have h4 : ¬ (((start % s.data.length : Nat) : Int) < 0) := by omega
      have h5 : ¬ (((start % s.data.length : Nat) : Int) > (s.data.length : Int)) := by omega
      have h6 : (start : Int).tmod (s.data.length : Int) =
          ((start % s.data.length : Nat) : Int) := by
        rw [Int.tmod_eq_emod (by omega) (by omega)]
        exact (Int.natCast_mod _ _).symm
      unfold substr
      simp only [h1, h4, if_false]
      rw [if_pos h2, if_neg h3, if_neg h5, h6]
  · intro i
    rw [List.getElem?_take, List.getElem?_drop]

/-- C18 (amended) at `substr("héllo", 1, 3)` and at `substr("abc", 4, 1)`. -/
theorem substr_spec_witness :
    substr "héllo" 1 3 = .ok "éll" ∧ substr "abc" 4 1 = .ok "b" :=
  ⟨(substr_spec "héllo" 1 3 (by norm_num) (Or.inl (by decide))).2.1,
   (substr_spec "abc" 4 1 (by norm_num) (Or.inr (by decide))).2.1⟩

end Air
